import Mathlib

/-!
# Verification of the rs-iiif-browser deep-zoom tile engine

A shallow embedding, in Lean 4, of the core of the `rs-iiif-browser`
repository: the coordinate transforms, pyramid level selection, required-tile
computation, tile-cache pruning, IIIF v2 image-info handling and the camera
gesture state machines.  Rust `f32` arithmetic is modelled exactly over `ℚ`
(the claims under study are about exact geometric relationships, stated "up to
floating-point rounding"); the orbit-camera angles, which involve `π`, are
modelled over `ℝ`.  Rust `u32` values are modelled as `ℕ`.

Each definition is translated from the corresponding Rust item, named after
it, with the source file noted in its doc comment.
-/

namespace RsIiif

/-- Rust `f32 as u32` cast for finite values: truncation toward zero,
saturating at `0` for negative inputs (`⌊q⌋.toNat` agrees with this for every
finite rational: for `q ≥ 0` flooring is truncation, for `q < 0` the cast
saturates to `0` and `Int.toNat` clamps to `0`). Values ≥ 2^32 do not occur in
the developments below, so the upper saturation of the cast is not modelled. -/
def ratTruncU32 (q : ℚ) : ℕ := ⌊q⌋.toNat

/-- 2-d vector over exact scalars, modelling `bevy::prelude::Vec2`. -/
structure V2 where
  x : ℚ
  y : ℚ
deriving DecidableEq

/-- 3-d vector over exact scalars, modelling `bevy::prelude::Vec3`. -/
structure V3 where
  x : ℚ
  y : ℚ
  z : ℚ
deriving DecidableEq

namespace V2

instance : Add V2 := ⟨fun a b => ⟨a.x + b.x, a.y + b.y⟩⟩

instance : Sub V2 := ⟨fun a b => ⟨a.x - b.x, a.y - b.y⟩⟩

instance : Neg V2 := ⟨fun a => ⟨-a.x, -a.y⟩⟩

/-- Componentwise product, as in glam's `Vec2 * Vec2`. -/
instance : Mul V2 := ⟨fun a b => ⟨a.x * b.x, a.y * b.y⟩⟩

/-- Componentwise quotient, as in glam's `Vec2 / Vec2`. -/
instance : Div V2 := ⟨fun a b => ⟨a.x / b.x, a.y / b.y⟩⟩

/-- Rust `Vec2 * f32` (uniform scale). -/
instance : HMul V2 ℚ V2 := ⟨fun a s => ⟨a.x * s, a.y * s⟩⟩

/-- Rust `Vec2 / f32` (uniform scale). -/
instance : HDiv V2 ℚ V2 := ⟨fun a s => ⟨a.x / s, a.y / s⟩⟩

/-- Rust `Vec2 - f32`, subtracting a scalar from each component. -/
instance : HSub V2 ℚ V2 := ⟨fun a s => ⟨a.x - s, a.y - s⟩⟩

def zero : V2 := ⟨0, 0⟩

/-- glam `Vec2::Y`. -/
def unitY : V2 := ⟨0, 1⟩

def dot (a b : V2) : ℚ := a.x * b.x + a.y * b.y

/-- glam `Vec2::reflect`: `self - 2 * self.dot(normal) * normal`. -/
def reflect (a n : V2) : V2 := a - n * (2 * a.dot n)

/-- Componentwise minimum (glam `Vec2::min`). -/
def vmin (a b : V2) : V2 := ⟨min a.x b.x, min a.y b.y⟩

/-- Componentwise maximum (glam `Vec2::max`). -/
def vmax (a b : V2) : V2 := ⟨max a.x b.x, max a.y b.y⟩

/-- Componentwise clamp (glam `Vec2::clamp`). -/
def clamp (a lo hi : V2) : V2 := (a.vmax lo).vmin hi

/-- glam `Vec2::extend`. -/
def extend (a : V2) (z : ℚ) : V3 := ⟨a.x, a.y, z⟩

/-- glam `Vec2::max_element`. -/
def maxElement (a : V2) : ℚ := max a.x a.y

end V2

namespace V3

instance : Add V3 := ⟨fun a b => ⟨a.x + b.x, a.y + b.y, a.z + b.z⟩⟩

instance : Sub V3 := ⟨fun a b => ⟨a.x - b.x, a.y - b.y, a.z - b.z⟩⟩

instance : Neg V3 := ⟨fun a => ⟨-a.x, -a.y, -a.z⟩⟩

/-- Rust `Vec3 * f32` (uniform scale). -/
instance : HMul V3 ℚ V3 := ⟨fun a s => ⟨a.x * s, a.y * s, a.z * s⟩⟩

/-- Rust `f32 * Vec3` (uniform scale). -/
instance : HMul ℚ V3 V3 := ⟨fun s a => ⟨s * a.x, s * a.y, s * a.z⟩⟩

def zero : V3 := ⟨0, 0, 0⟩

/-- glam `Vec3::Y`. -/
def unitY : V3 := ⟨0, 1, 0⟩

/-- glam `Vec3::splat`. -/
def splat (s : ℚ) : V3 := ⟨s, s, s⟩

def dot (a b : V3) : ℚ := a.x * b.x + a.y * b.y + a.z * b.z

/-- glam `Vec3::reflect`: `self - 2 * self.dot(normal) * normal`. -/
def reflect (a n : V3) : V3 := a - n * (2 * a.dot n)

/-- glam `Vec3::truncate`, dropping the `z` component. -/
def truncate (a : V3) : V2 := ⟨a.x, a.y⟩

end V3

/-- Axis-aligned rectangle, modelling `bevy::prelude::Rect`
(`min`/`max` corners). -/
structure Rect where
  rmin : V2
  rmax : V2
deriving DecidableEq

namespace Rect

/-- Rust `Rect::from_corners`, which sorts the two corners componentwise. -/
def from_corners (p0 p1 : V2) : Rect := ⟨p0.vmin p1, p0.vmax p1⟩

def width (r : Rect) : ℚ := r.rmax.x - r.rmin.x

def height (r : Rect) : ℚ := r.rmax.y - r.rmin.y

end Rect

/-! ## IIIF data (`src/iiif/image.rs`, `src/iiif.rs`) -/

/-- Rust `IiifFeature` (`src/iiif/image.rs`). -/
inductive IiifFeature where
  | baseUriRedirect
  | canonicalLinkHeader
  | cors
  | jsonldMediaType
  | mirroring
  | profileLinkHeader
  | regionByPct
  | regionByPx
  | regionSquare
  | rotationArbitrary
  | rotationBy90s
  | sizeByConfinedWh
  | sizeByH
  | sizeByPct
  | sizeByW
  | sizeByWh
  | sizeUpscaling
  | sizeByWhListed
  | sizeByForcedWh
  | sizeAboveFull
  | sizeByDistortedWh
deriving DecidableEq

/-- Rust `IiifImageQuality` (`src/iiif/image.rs`). -/
inductive IiifImageQuality where
  | color
  | gray
  | bitonal
  | native
  | defaultQuality
deriving DecidableEq

/-- Rust `IiifImageFormat` (`src/iiif/image.rs`). -/
inductive IiifImageFormat where
  | jpg
  | png
  | tif
  | gif
  | txt
  | jp2
  | pdf
  | webp
deriving DecidableEq

/-- The `Display` impl for `IiifImageFormat` (`src/iiif/image.rs`); note the
source renders `Jp2` as the string `"jpg2"`. -/
def IiifImageFormat.display : IiifImageFormat → String
  | .jpg => "jpg"
  | .png => "png"
  | .tif => "tif"
  | .gif => "gif"
  | .txt => "txt"
  | .jp2 => "jpg2"
  | .pdf => "pdf"
  | .webp => "webp"

/-- The variants of `IiifError` (`src/iiif.rs`) reachable from the modelled
code paths. -/
inductive IiifError where
  | iiifMissingInfo (msg : String)
  | iiifFormatError (msg : String)
deriving DecidableEq

/-! ## Pyramid descriptor (`src/rendering/tiled_image.rs`, `src/rendering/tile.rs`) -/

/-- Rust `Size` (`src/rendering/tiled_image.rs`): `u32` pixel dimensions. -/
structure Size where
  width : ℕ
  height : ℕ
deriving DecidableEq

/-- Rust `impl From<Size> for Vec2`. -/
def Size.toV2 (s : Size) : V2 := ⟨(s.width : ℚ), (s.height : ℚ)⟩

/-- Rust `TileIndex` (`src/rendering/tile.rs`): `(x, y, z)` with `z` the level. -/
structure TileIndex where
  x : ℕ
  y : ℕ
  z : ℕ
deriving DecidableEq

/-- Rust `TileIndex::level` (`src/rendering/tile.rs`). -/
def TileIndex.level (t : TileIndex) : ℕ := t.z

/-- Rust `impl From<TileIndex> for Vec2`. -/
def TileIndex.toV2 (t : TileIndex) : V2 := ⟨(t.x : ℚ), (t.y : ℚ)⟩

/-- Rust `Tile` (`src/rendering/tile.rs`) without the Bevy image handle (the asset
load status of a tile is modelled separately where it matters, in the prune
pass). -/
structure Tile where
  index : TileIndex
  image_position : Rect
  world_position : Rect
deriving DecidableEq

/-- Rust `TiledImage` (`src/rendering/tiled_image.rs`): the pyramid descriptor. -/
structure TiledImage where
  iiif_endpoint : String
  levels : List Size
  tile_size : Size
  image_format : IiifImageFormat
  supported_features : List IiifFeature
  optional_sizes : List Size
deriving DecidableEq

namespace TiledImage

/-- Rust `TiledImage::world_to_image`: `p.reflect(Vec3::Y).truncate()`. -/
def world_to_image (_ti : TiledImage) (p : V3) : V2 := (p.reflect V3.unitY).truncate

/-- Rust `TiledImage::image_to_world`: `p.extend(0.0).reflect(Vec3::Y)`. -/
def image_to_world (_ti : TiledImage) (p : V2) : V3 := (p.extend 0).reflect V3.unitY

/-- Rust `TiledImage::get_max_size`: the last (full-resolution) level as a `Vec2`.
The source `expect`s a non-empty level list; the default here is only reached
in the empty case, which theorems exclude by hypothesis. -/
def get_max_size (ti : TiledImage) : V2 := (ti.levels.getLastD ⟨0, 0⟩).toV2

/-- Rust `TiledImage::world_to_image_scale`: `max_size.x / levels[level].width`.
Out-of-range indexing panics in the source; the default is only reached
out of range. -/
def world_to_image_scale (ti : TiledImage) (level : ℕ) : ℚ :=
  ti.get_max_size.x / ((ti.levels.getD level ⟨0, 0⟩).width : ℚ)

/-- Rust `TiledImage::image_to_tile`: `p / (tile_size * scale)`. -/
def image_to_tile (ti : TiledImage) (level : ℕ) (p : V2) : V2 :=
  p / (ti.tile_size.toV2 * ti.world_to_image_scale level)

/-- Rust `TiledImage::tile_to_image`: `p * tile_size * scale`. -/
def tile_to_image (ti : TiledImage) (level : ℕ) (p : V2) : V2 :=
  p * ti.tile_size.toV2 * ti.world_to_image_scale level

/-- The `for level in 0..=max_level` search loop of
`TiledImage::get_level_at`, returning the index (counting from `i`) of the
first level whose width passes the test, if any. -/
def level_search (needed : ℕ) : List Size → ℕ → Option ℕ
  | [], _ => none
  | s :: rest, i => if needed ≤ s.width then some i else level_search needed rest (i + 1)

/-- Rust `TiledImage::get_level_at`: the on-screen pixel resolution needed at this
world zoom scale is computed through the transform model, then the first
level wide enough is returned, defaulting to the last level. -/
def get_level_at (ti : TiledImage) (world_zoom_scale : ℚ) : ℕ :=
  let max_level := ti.levels.length - 1
  let image_zoom_scale :=
    ti.world_to_image (V3.splat world_zoom_scale) - ti.world_to_image V3.zero
  let image_size := ti.get_max_size / image_zoom_scale
  let needed := ratTruncU32 |image_size.x|
  (level_search needed ti.levels 0).getD max_level

/-- The closed inclusive integer range `a..=b` as a list
(empty when `b < a`, as in Rust). -/
def natRangeIncl (a b : ℕ) : List ℕ := List.range' a (b + 1 - a)

/-- The cells `(x, y)` visited by the nested
`for y in ymin..=ymax { for x in xmin..=xmax { ... } }` loops of
`TiledImage::get_required_tiles`, in visit order. -/
def requiredCells (xmin xmax ymin ymax : ℕ) : List (ℕ × ℕ) :=
  (natRangeIncl ymin ymax).flatMap fun y => (natRangeIncl xmin xmax).map fun x => (x, y)

/-- The body of the `get_required_tiles` loop for one cell: build the tile's
image- and world-space rectangles and keep it unless degenerate
(width or height ≤ 0.5 image pixels). -/
def mkRequiredTile (ti : TiledImage) (level : ℕ) (image_max_size : V2) (x y : ℕ) :
    Option Tile :=
  let tile_index : TileIndex := ⟨x, y, level⟩
  let next_tile_index : TileIndex := ⟨x + 1, y + 1, level⟩
  let image_top_left := ti.tile_to_image level tile_index.toV2
  let image_bot_rght := (ti.tile_to_image level next_tile_index.toV2).vmin image_max_size
  let image_position := Rect.from_corners image_top_left image_bot_rght
  if image_position.width > 1/2 ∧ image_position.height > 1/2 then
    let world_position := Rect.from_corners
      (ti.image_to_world image_top_left).truncate
      (ti.image_to_world image_bot_rght).truncate
    some ⟨tile_index, image_position, world_position⟩
  else
    none

/-- The accumulating loop of `get_required_tiles`: threads the surviving
tile list and the four running accumulators
`(tile_min_x, tile_min_y, tile_max_x, tile_max_y)` through the visited
cells. -/
def requiredTilesLoop (ti : TiledImage) (level : ℕ) (image_max_size : V2) :
    List (ℕ × ℕ) → List Tile × ℕ × ℕ × ℕ × ℕ → List Tile × ℕ × ℕ × ℕ × ℕ
  | [], acc => acc
  | c :: cs, acc =>
      match mkRequiredTile ti level image_max_size c.1 c.2 with
      | some tile =>
          requiredTilesLoop ti level image_max_size cs
            (acc.1 ++ [tile], min acc.2.1 c.1, min acc.2.2.1 c.2,
              max acc.2.2.2.1 c.1, max acc.2.2.2.2 c.2)
      | none => requiredTilesLoop ti level image_max_size cs acc

/-- The clamped-viewport-to-tile-grid steps of `get_required_tiles`: clamp
both world corners into `[0, max_size − 1]` in image space, reorder, convert
to tile space with the target level's scale, and enumerate the inclusive
tile-index range as cells. -/
def required_cells (ti : TiledImage) (level : ℕ) (world_pos_min world_pos_max : V3) :
    List (ℕ × ℕ) :=
  let image_max_size := ti.get_max_size
  let image_p0 := (ti.world_to_image world_pos_min).clamp V2.zero (image_max_size - (1 : ℚ))
  let image_p1 := (ti.world_to_image world_pos_max).clamp V2.zero (image_max_size - (1 : ℚ))
  let image_min := image_p0.vmin image_p1
  let image_max := image_p0.vmax image_p1
  let tile_min := ti.image_to_tile level image_min
  let tile_max := ti.image_to_tile level image_max
  requiredCells (ratTruncU32 tile_min.x) (ratTruncU32 tile_max.x)
    (ratTruncU32 tile_min.y) (ratTruncU32 tile_max.y)

/-- Rust `TiledImage::get_required_tiles`: clamp the world-space viewport corners
into the image, convert to tile space, enumerate the inclusive tile range and
keep the non-degenerate tiles; returns the tiles plus the inclusive x/y index
ranges `(lo, hi)` accumulated by the loop (accumulators initialised to `0`,
as in the source). -/
def get_required_tiles (ti : TiledImage) (level : ℕ) (world_pos_min world_pos_max : V3) :
    List Tile × (ℕ × ℕ) × (ℕ × ℕ) :=
  let r := requiredTilesLoop ti level ti.get_max_size
    (ti.required_cells level world_pos_min world_pos_max) ([], 0, 0, 0, 0)
  (r.1, (r.2.1, r.2.2.2.1), (r.2.2.1, r.2.2.2.2))

/-- The `region` string of `TiledImage::get_image_url`: the literal `"full"`
when the requested rectangle is the whole image, explicit coordinates
otherwise. -/
def region_string (ti : TiledImage) (left top width height : ℕ) : String :=
  let max_size := ti.get_max_size
  if left = 0 ∧ top = 0 ∧ width = ratTruncU32 max_size.x ∧ height = ratTruncU32 max_size.y then
    "full"
  else
    Nat.repr left ++ "," ++ Nat.repr top ++ "," ++ Nat.repr width ++ "," ++ Nat.repr height

/-- Rust `TiledImage::get_image_url`:
`"{endpoint}/{region}/{size.width},{size.height}/0/default.{format}"`. -/
def get_image_url (ti : TiledImage) (left top width height : ℕ) (size : Size) : String :=
  ti.iiif_endpoint ++ "/" ++ ti.region_string left top width height ++ "/"
    ++ Nat.repr size.width ++ "," ++ Nat.repr size.height
    ++ "/0/default." ++ ti.image_format.display

end TiledImage

/-- The pyramid built by the unit tests of `src/rendering/tiled_image.rs`:
levels `[678×478, 1357×955, 2713×1910]`, tile size `1024×1024`, PNG. -/
def testImage : TiledImage where
  iiif_endpoint := "https://iiif_end_point/uuid"
  levels := [⟨678, 478⟩, ⟨1357, 955⟩, ⟨2713, 1910⟩]
  tile_size := ⟨1024, 1024⟩
  image_format := .png
  supported_features := [.sizeByWhListed]
  optional_sizes := [⟨678, 478⟩, ⟨1357, 955⟩, ⟨2713, 1910⟩]

/-! ## IIIF v2 image info (`src/iiif/image_v2.rs`) -/

/-- Rust `IiifTileInfo` (`src/iiif/image_v2.rs`). -/
structure IiifTileInfo where
  width : ℕ
  height : Option ℕ
  scale_factors : List ℕ
deriving DecidableEq

/-- Rust `IiifProfileDetails` (`src/iiif/image_v2.rs`). -/
structure IiifProfileDetails where
  formats : Option (List IiifImageFormat)
  qualities : Option (List IiifImageQuality)
  supports : Option (List IiifFeature)
deriving DecidableEq

/-- Rust `IiifProfileInfo` (`src/iiif/image_v2.rs`): either a compliance-level URL
or inline profile details. -/
inductive IiifProfileInfo where
  | url (u : String)
  | profileDetails (d : IiifProfileDetails)
deriving DecidableEq

/-- The parsed `IiifImageInfo` of `src/iiif/image_v2.rs`.  The `profile`
field (`OneTypeOrMany` in the source) is modelled as the list its iterator
yields. -/
structure IiifImageInfoV2 where
  width : ℕ
  height : ℕ
  sizes : Option (List Size)
  tiles : Option (List IiifTileInfo)
  profile : List IiifProfileInfo
deriving DecidableEq

/-- Rust `IiifProfileDetails::from_url` (`src/iiif/image_v2.rs`): the fixed table
of IIIF Image API 2 compliance levels; any other URL is a format error. -/
def IiifProfileDetails.from_url (u : String) : Except IiifError IiifProfileDetails :=
  if u = "http://iiif.io/api/image/2/level0.json"
      ∨ u = "https://iiif.io/api/image/2/level0.json" then
    .ok ⟨some [.jpg], some [.defaultQuality], some [.sizeByWhListed]⟩
  else if u = "http://iiif.io/api/image/2/level1.json"
      ∨ u = "https://iiif.io/api/image/2/level1.json" then
    .ok ⟨some [.jpg], some [.defaultQuality],
      some [.sizeByWhListed, .baseUriRedirect, .cors, .jsonldMediaType,
        .regionByPx, .sizeByH, .sizeByPct, .sizeByW]⟩
  else if u = "http://iiif.io/api/image/2/level2.json"
      ∨ u = "https://iiif.io/api/image/2/level2.json" then
    .ok ⟨some [.jpg, .png], some [.defaultQuality, .bitonal],
      some [.sizeByWhListed, .baseUriRedirect, .cors, .jsonldMediaType,
        .regionByPx, .sizeByH, .sizeByPct, .sizeByW, .regionByPct,
        .rotationBy90s, .sizeByConfinedWh, .sizeByDistortedWh,
        .sizeByForcedWh, .sizeByWh]⟩
  else
    .error (.iiifFormatError ("unexpected profile url " ++ u))

/-- Rust `IiifProfileDetails::get_supported_features`: the `supports` list, empty
when absent. -/
def IiifProfileDetails.get_supported_features (d : IiifProfileDetails) : List IiifFeature :=
  d.supports.getD []

/-- Rust `IiifProfileDetails::get_formats`: the `formats` list, empty when
absent. -/
def IiifProfileDetails.get_formats (d : IiifProfileDetails) : List IiifImageFormat :=
  d.formats.getD []

/-- The profile-expansion loop of `impl TryFrom<IiifImageInfo> for ImageInfo`
(`src/iiif/image_v2.rs`): URLs are looked up, inline details kept, the first
failure aborts. -/
def expandProfiles : List IiifProfileInfo → Except IiifError (List IiifProfileDetails)
  | [] => .ok []
  | .url u :: rest => do
      let d ← IiifProfileDetails.from_url u
      let ds ← expandProfiles rest
      .ok (d :: ds)
  | .profileDetails d :: rest => do
      let ds ← expandProfiles rest
      .ok (d :: ds)

/-- Rust `ImageInfo` (`src/iiif/image_v2.rs`): the parsed info together with its
expanded profiles. -/
structure ImageInfo where
  iiif_image_info : IiifImageInfoV2
  expanded_profiles : List IiifProfileDetails
deriving DecidableEq

/-- Rust `impl TryFrom<IiifImageInfo> for ImageInfo` (`src/iiif/image_v2.rs`):
an empty profile list is a missing-info error, then every profile entry is
expanded. -/
def ImageInfo.try_from (info : IiifImageInfoV2) : Except IiifError ImageInfo :=
  if info.profile.isEmpty then
    .error (.iiifMissingInfo "Missing profile")
  else do
    let ps ← expandProfiles info.profile
    .ok ⟨info, ps⟩

/-- Ascending-by-pixel-area order on `Size`, the comparator of the
`sort_by` calls in `src/iiif/image_v2.rs`. -/
def sizeAreaLE (a b : Size) : Prop := a.width * a.height ≤ b.width * b.height

instance : DecidableRel sizeAreaLE := fun a b => by
  unfold sizeAreaLE; infer_instance

instance : IsTotal Size sizeAreaLE := ⟨fun _ _ => Nat.le_total _ _⟩

instance : IsTrans Size sizeAreaLE := ⟨fun _ _ _ => Nat.le_trans⟩

/-- Rust `ImageInfo::get_optional_sizes` (`src/iiif/image_v2.rs`): the advertised
sizes (or just the full size), with the full size appended when missing, in
ascending area order.  Rust's `sort_by` is a stable sort; so is
`List.insertionSort` with a `≤`-style relation, used throughout this model. -/
def ImageInfo.get_optional_sizes (ii : ImageInfo) : List Size :=
  let info := ii.iiif_image_info
  let image_sizes : List Size :=
    match info.sizes with
    | some sizes =>
        if sizes.any (fun x => x.width == info.width && x.height == info.height) then sizes
        else sizes ++ [⟨info.width, info.height⟩]
    | none => [⟨info.width, info.height⟩]
  image_sizes.insertionSort sizeAreaLE

/-- Rust `ImageInfo::get_tile_scaling_sizes` (`src/iiif/image_v2.rs`): one size
per scale factor of the first tile spec (integer division `width / f`,
`height / f`), with the full size appended when not already present, in
ascending area order.  A zero scale factor panics in Rust (`u32` division by
zero); theorems about this function assume positive factors. -/
def ImageInfo.get_tile_scaling_sizes (ii : ImageInfo) : List Size :=
  let info := ii.iiif_image_info
  let scaling_sizes : List Size :=
    match info.tiles with
    | some (tile :: _) =>
        tile.scale_factors.map fun f => ⟨info.width / f, info.height / f⟩
    | _ => []
  let default_size : Size := ⟨info.width, info.height⟩
  let scaling_sizes :=
    if scaling_sizes.any
        (fun x => x.width == default_size.width && x.height == default_size.height)
    then scaling_sizes
    else scaling_sizes ++ [default_size]
  scaling_sizes.insertionSort sizeAreaLE

/-- Rust `ImageInfo::get_tile_size` (`src/iiif/image_v2.rs`): the first tile
spec's width/height, falling back to 512×512 when tile metadata is absent
(and to a square tile when the height is absent). -/
def ImageInfo.get_tile_size (ii : ImageInfo) : Size :=
  let default_tile_size : Size := ⟨512, 512⟩
  match ii.iiif_image_info.tiles with
  | some tiles =>
      match tiles.head? with
      | none => default_tile_size
      | some x => ⟨x.width, x.height.getD x.width⟩
  | none => default_tile_size

/-- Rust `ImageInfo::get_profile_details`. -/
def ImageInfo.get_profile_details (ii : ImageInfo) : List IiifProfileDetails :=
  ii.expanded_profiles

/-- Rust `TiledImage::try_from_json` (`src/rendering/tiled_image.rs`), modelled
from the point where the JSON has been parsed into a v2 `IiifImageInfo`
(parsing itself is serde, outside the core).  The `HashSet` of supported
features is modelled as the concatenated list (only membership is ever
queried).  Supporting both `RegionByPx` and `SizeByWh` selects tiling;
otherwise the image degrades to a single full-size level. -/
def TiledImage.try_from_image_info (info : IiifImageInfoV2) (iiif_endpoint : String) :
    Except IiifError TiledImage := do
  let ii ← ImageInfo.try_from info
  let supported_features :=
    (ii.get_profile_details.map IiifProfileDetails.get_supported_features).flatten
  let (tile_size, levels) :=
    if supported_features.contains IiifFeature.regionByPx
        ∧ supported_features.contains IiifFeature.sizeByWh then
      (ii.get_tile_size, ii.get_tile_scaling_sizes)
    else
      let ts : Size := ⟨info.width, info.height⟩
      (ts, [ts])
  let optional_sizes := ii.get_optional_sizes
  let image_format ←
    match ii.get_profile_details.head? with
    | none => .error (.iiifMissingInfo ("missing profile in '" ++ iiif_endpoint ++ "'"))
    | some d =>
        match d.get_formats.head? with
        | none => .error (.iiifMissingInfo ("missing image format in '" ++ iiif_endpoint ++ "'"))
        | some f => .ok f
  .ok ⟨iiif_endpoint, levels, tile_size, image_format, supported_features, optional_sizes⟩

/-! ## Tile cache pruning (`src/rendering/tile.rs`) -/

/-- Rust `TileCacheItem` (`src/rendering/tile.rs`), without the Bevy `Entity`
handle: eviction is identified by `TileIndex` below. -/
structure TileCacheItem where
  last_visible_secs : ℚ
deriving DecidableEq

/-- One entry of the Bevy `Query<&Tile>` iterated by `prune_tiles_system`:
the tile's index together with whether its image asset has finished loading
(`asset_server.get_load_state(..) == Some(LoadState::Loaded)`). -/
structure PruneTile where
  index : TileIndex
  loaded : Bool
deriving DecidableEq

/-- Lookup in the tile cache's `HashMap<TileIndex, TileCacheItem>`, modelled
as an association list. -/
def cacheGet (cache : List (TileIndex × TileCacheItem)) (idx : TileIndex) :
    Option TileCacheItem :=
  (cache.find? (fun e => e.1 == idx)).map (·.2)

/-- The `is_out_of_view` test of `prune_tiles_system` (`src/rendering/tile.rs`):
a tile is out of view iff its level is beyond the recomputed per-level range
list (`Option::is_none_or`), or its level's ranges exist and the tile's x or y
index falls outside them (`Option::is_some_and`). -/
def isOutOfView (all_required_tiles : List (Option (List Tile × (ℕ × ℕ) × (ℕ × ℕ))))
    (t : PruneTile) : Bool :=
  match all_required_tiles[t.index.level]? with
  | none => true
  | some none => false
  | some (some (_, rx, ry)) =>
      !(rx.1 ≤ t.index.x && t.index.x ≤ rx.2) || !(ry.1 ≤ t.index.y && t.index.y ≤ ry.2)

/-- Ascending order by `last_visible_secs`, the comparator of the
`sort_by` in `prune_tiles_system` (ascending, stable on ties — `Ordering::Equal`). -/
def lastVisibleLE (a b : TileIndex × TileCacheItem) : Prop :=
  a.2.last_visible_secs ≤ b.2.last_visible_secs

instance : DecidableRel lastVisibleLE := fun a b => by
  unfold lastVisibleLE; infer_instance

instance : IsTotal (TileIndex × TileCacheItem) lastVisibleLE :=
  ⟨fun _ _ => le_total _ _⟩

instance : IsTrans (TileIndex × TileCacheItem) lastVisibleLE :=
  ⟨fun _ _ _ => le_trans⟩

/-- Rust `prune_tiles_system` (`src/rendering/tile.rs`), as the list of tile
indices it evicts.  Runs only when the cache exceeds the configured budget;
recomputes the required-tile ranges for every level from `0` to the active
level; unconditionally drops out-of-view tiles whose payload has not finished
loading; then drops the oldest loaded out-of-view tiles until the excess is
gone or candidates run out.  The loop's in-place cache removals only matter
when two queried tiles share an index, which the systems never produce; the
eviction decision for each tile is as written here. -/
def prune_tiles_system (cache : List (TileIndex × TileCacheItem)) (tiles : List PruneTile)
    (max_cache_items : ℕ) (active_level : ℕ) (ti : TiledImage)
    (world_pos_min world_pos_max : V3) : List TileIndex :=
  if cache.length ≤ max_cache_items then []
  else
    let num_items_to_remove := cache.length - max_cache_items
    let all_required_tiles : List (Option (List Tile × (ℕ × ℕ) × (ℕ × ℕ))) :=
      (List.range (active_level + 1)).map fun level =>
        some (ti.get_required_tiles level world_pos_min world_pos_max)
    let candidates := tiles.filter fun t =>
      isOutOfView all_required_tiles t && (cacheGet cache t.index).isSome
    let immediate := (candidates.filter fun t => !t.loaded).map (·.index)
    let out_of_view_tiles := (candidates.filter fun t => t.loaded).filterMap fun t =>
      (cacheGet cache t.index).map fun item => (t.index, item)
    let num_items_to_remove := num_items_to_remove - immediate.length
    immediate ++
      if 0 < num_items_to_remove then
        ((out_of_view_tiles.insertionSort lastVisibleLE).take num_items_to_remove).map (·.1)
      else []

/-! ## Camera modes and planar pan/zoom
(`src/camera/main_camera.rs`, `src/camera/pan_zoom_state_2d.rs`, `src/input/mouse.rs`) -/

/-- The `CameraMode` bitflags (`src/camera/main_camera.rs`):
`Pan = 1`, `Zoom = 2`, `Orbit = 4`. -/
structure CameraMode where
  bits : ℕ
deriving DecidableEq

namespace CameraMode

def Pan : CameraMode := ⟨1⟩

def Zoom : CameraMode := ⟨2⟩

def Orbit : CameraMode := ⟨4⟩

/-- Bitflags `a | b`. -/
def union (a b : CameraMode) : CameraMode := ⟨a.bits ||| b.bits⟩

/-- Bitflags `intersects`: the two flag sets share a bit. -/
def intersects (a b : CameraMode) : Bool := a.bits &&& b.bits != 0

end CameraMode

/-- The `Invalidate` bitflags (`src/camera/main_camera.rs`):
`Translate` and `Zoom`. -/
structure Invalidate where
  translate : Bool
  zoom : Bool
deriving DecidableEq

/-- The mode-selection `if` of `mouse_input_system` (`src/input/mouse.rs`):
left button alone pans, right button alone orbits, anything else
(no button, or both) is zoom. -/
def mouseCameraMode (left_pressed right_pressed : Bool) : CameraMode :=
  if left_pressed && !right_pressed then CameraMode.Pan
  else if right_pressed && !left_pressed then CameraMode.Orbit
  else CameraMode.Zoom

/-- Rust `delta_zoom` as computed by `mouse_input_system` (`src/input/mouse.rs`)
from the accumulated signum of the wheel events: `1.0 - delta_wheel * 0.1`. -/
def deltaZoomOfWheel (delta_wheel : ℚ) : ℚ := 1 - delta_wheel * (1 / 10)

/-- Rust `PanZoomState2d` (`src/camera/pan_zoom_state_2d.rs`). -/
structure PanZoomState2d where
  translation : V3
  scale : ℚ
deriving DecidableEq

/-- The configuration consumed by the planar camera
(`src/app/app_settings.rs`). -/
structure AppSettings2d where
  min_camera_zoom_scale : ℚ
  min_image_size : ℚ
deriving DecidableEq

/-- The application state consumed and produced by the planar camera
(`src/app/app_state.rs`): the active level and the image's world-space
size. -/
structure AppState2d where
  level : ℕ
  world_image_max_size : V2
deriving DecidableEq

/-- The outcome of one `PanZoomState2d::apply` call: the orthographic
projection scale, the camera translation, the active level and the
invalidation flags after the call. -/
structure PanZoomOutcome where
  scale : ℚ
  translation : V3
  level : ℕ
  invalidate : Invalidate
deriving DecidableEq

/-- Rust `PanZoomState2d::apply` (`src/camera/pan_zoom_state_2d.rs`).  Inputs
`scale0`/`translation0` are the orthographic scale and camera translation
before the call (returned unchanged on the no-op paths), `tiled_image` the
single `TiledImage` if one exists.  The zoom delta only takes effect when the
mode contains `Zoom`; the pan delta only when it contains `Pan`. -/
def PanZoomState2d.apply (mode : CameraMode) (initial_state : PanZoomState2d)
    (current_pos viewport_centre : V2) (delta_zoom : ℚ) (delta_move : V3)
    (app_settings : AppSettings2d) (app_state : AppState2d)
    (tiled_image : Option TiledImage) (translation0 : V3) (scale0 : ℚ)
    (invalidate0 : Invalidate) : PanZoomOutcome :=
  if !(mode.intersects (CameraMode.Pan.union CameraMode.Zoom)) then
    ⟨scale0, translation0, app_state.level, invalidate0⟩
  else
    let delta_zoom_with_mode := if mode.intersects CameraMode.Zoom then delta_zoom else 1
    let max_camera_zoom_scale :=
      app_state.world_image_max_size.maxElement / app_settings.min_image_size
    let scale :=
      min (max (initial_state.scale * delta_zoom_with_mode) app_settings.min_camera_zoom_scale)
        max_camera_zoom_scale
    let delta_scale := initial_state.scale - scale
    let move_due_to_zoom := (current_pos - viewport_centre).reflect V2.unitY * delta_scale
    let delta_move_with_mode :=
      if mode.intersects CameraMode.Pan then delta_move.reflect V3.unitY else V3.zero
    if delta_move ≠ V3.zero ∨ delta_scale ≠ 0 then
      { scale := scale
        translation := initial_state.translation - scale * delta_move_with_mode
          + (move_due_to_zoom.extend 0)
        level := match tiled_image with
          | some ti => ti.get_level_at scale
          | none => app_state.level
        invalidate := ⟨invalidate0.translate || decide (delta_move ≠ V3.zero),
          invalidate0.zoom || decide (delta_scale ≠ 0)⟩ }
    else
      ⟨scale0, translation0, app_state.level, invalidate0⟩

/-! ## Orbit camera angles (`src/camera/pan_orbit_state_3d.rs`) -/

/-- The exact value of the `f32` constant `std::f32::consts::PI`
(bit pattern `0x40490FDB`), the `PI` used by the orbit camera's wrap code.
`f32::consts::TAU` is exactly `2 * pi32` and `FRAC_PI_2` exactly
`pi32 / 2`, so the orbit angle arithmetic below is exact over `ℚ`. -/
def pi32 : ℚ := 13176795 / 4194304

/-- The two sequential wrap `if`s applied to yaw and to pitch in
`PanOrbitState3d::apply` (`src/camera/pan_orbit_state_3d.rs`): subtract one
turn (`TAU`) when above `PI`, then add one turn when below `-PI`. -/
def wrapAngle (a : ℚ) : ℚ :=
  let a1 := if a > pi32 then a - 2 * pi32 else a
  if a1 < -pi32 then a1 + 2 * pi32 else a1

/-- The yaw/pitch portion of `PanOrbitState3d::apply`
(`src/camera/pan_orbit_state_3d.rs`), lines 66–94: when orbiting with a
non-zero drag, the yaw delta (sign-flipped while the camera is upside down,
`|pitch| > FRAC_PI_2`) and pitch delta are added to the *initial-state*
angles and wrapped; otherwise the current angles are kept.  `cur`/`initial`
are `(yaw, pitch)` pairs of the running and snapshot states; the radius,
centre and transform recomputation in `apply` do not touch the angles. -/
def panOrbitApplyAngles (mode : CameraMode) (cur initial : ℚ × ℚ)
    (orbit_sensitivity : ℚ) (delta_move : V3) : ℚ × ℚ :=
  if mode.intersects CameraMode.Orbit ∧ delta_move ≠ V3.zero then
    let delta_move_x :=
      if initial.2 < -(pi32 / 2) ∨ initial.2 > pi32 / 2 then delta_move.x
      else -delta_move.x
    let yaw := wrapAngle (initial.1 + delta_move_x * orbit_sensitivity)
    let pitch := wrapAngle (initial.2 + delta_move.y * orbit_sensitivity)
    (yaw, pitch)
  else cur

/-! ## Componentwise unfolding lemmas for the vector operations -/

@[simp] lemma V2.add_x (a b : V2) : (a + b).x = a.x + b.x := rfl

@[simp] lemma V2.add_y (a b : V2) : (a + b).y = a.y + b.y := rfl

@[simp] lemma V2.sub_x (a b : V2) : (a - b).x = a.x - b.x := rfl

@[simp] lemma V2.sub_y (a b : V2) : (a - b).y = a.y - b.y := rfl

@[simp] lemma V2.mul_x (a b : V2) : (a * b).x = a.x * b.x := rfl

@[simp] lemma V2.mul_y (a b : V2) : (a * b).y = a.y * b.y := rfl

@[simp] lemma V2.div_x (a b : V2) : (a / b).x = a.x / b.x := rfl

@[simp] lemma V2.div_y (a b : V2) : (a / b).y = a.y / b.y := rfl

@[simp] lemma V2.smul_x (a : V2) (s : ℚ) : (a * s).x = a.x * s := rfl

@[simp] lemma V2.smul_y (a : V2) (s : ℚ) : (a * s).y = a.y * s := rfl

@[simp] lemma V2.sdiv_x (a : V2) (s : ℚ) : (a / s).x = a.x / s := rfl

@[simp] lemma V2.sdiv_y (a : V2) (s : ℚ) : (a / s).y = a.y / s := rfl

@[simp] lemma V2.ssub_x (a : V2) (s : ℚ) : (a - s).x = a.x - s := rfl

@[simp] lemma V2.ssub_y (a : V2) (s : ℚ) : (a - s).y = a.y - s := rfl

@[simp] lemma V3.v3_add_x (a b : V3) : (a + b).x = a.x + b.x := rfl

@[simp] lemma V3.v3_add_y (a b : V3) : (a + b).y = a.y + b.y := rfl

@[simp] lemma V3.add_z (a b : V3) : (a + b).z = a.z + b.z := rfl

@[simp] lemma V3.v3_sub_x (a b : V3) : (a - b).x = a.x - b.x := rfl

@[simp] lemma V3.v3_sub_y (a b : V3) : (a - b).y = a.y - b.y := rfl

@[simp] lemma V3.sub_z (a b : V3) : (a - b).z = a.z - b.z := rfl

@[simp] lemma V3.v3_smul_x (a : V3) (s : ℚ) : (a * s).x = a.x * s := rfl

@[simp] lemma V3.v3_smul_y (a : V3) (s : ℚ) : (a * s).y = a.y * s := rfl

@[simp] lemma V3.smul_z (a : V3) (s : ℚ) : (a * s).z = a.z * s := rfl

@[simp] lemma V3.smul_left_x (s : ℚ) (a : V3) : (s * a).x = s * a.x := rfl

@[simp] lemma V3.smul_left_y (s : ℚ) (a : V3) : (s * a).y = s * a.y := rfl

@[simp] lemma V3.smul_left_z (s : ℚ) (a : V3) : (s * a).z = s * a.z := rfl

/-- Reflection about `Vec3::Y` in coordinates: it negates `y` only. -/
lemma V3.v3_reflect_unitY (p : V3) : p.reflect V3.unitY = ⟨p.x, -p.y, p.z⟩ := by
  simp only [V3.reflect, V3.dot, V3.unitY]
  show (⟨p.x - 0 * _, p.y - 1 * _, p.z - 0 * _⟩ : V3) = _
  ring_nf

/-- Reflection about `Vec2::Y` in coordinates: it negates `y` only. -/
lemma V2.reflect_unitY (p : V2) : p.reflect V2.unitY = ⟨p.x, -p.y⟩ := by
  simp only [V2.reflect, V2.dot, V2.unitY]
  show (⟨p.x - 0 * _, p.y - 1 * _⟩ : V2) = _
  ring_nf

/-- Unfolding `world_to_image` into coordinates. -/
lemma TiledImage.world_to_image_eq (ti : TiledImage) (p : V3) :
    ti.world_to_image p = ⟨p.x, -p.y⟩ := by
  simp [TiledImage.world_to_image, V3.v3_reflect_unitY, V3.truncate]

/-- Unfolding `image_to_world` into coordinates. -/
lemma TiledImage.image_to_world_eq (ti : TiledImage) (p : V2) :
    ti.image_to_world p = ⟨p.x, -p.y, 0⟩ := by
  simp only [TiledImage.image_to_world, V2.extend]
  rw [V3.v3_reflect_unitY]

/-! ## C4 — the world/image transforms -/

/-- C4 counterexample.  The claim asserts
`image_to_world (world_to_image p) == p` for *every* finite point `p`; but
`world_to_image` truncates the `z` component and `image_to_world`
re-extends it with `0`, so any point off the `z = 0` plane refutes it:
at `p = (0,0,1)` the round trip returns `(0,0,0) ≠ p`. -/
theorem c4_roundtrip_counterexample :
    testImage.image_to_world (testImage.world_to_image ⟨0, 0, 1⟩) ≠ ⟨0, 0, 1⟩ := by
  rw [TiledImage.world_to_image_eq, TiledImage.image_to_world_eq]
  intro h
  exact absurd (congrArg V3.z h) (by norm_num)

/-- C4 (amended).  For every pyramid descriptor and every finite point `p`,
the round trip `image_to_world (world_to_image p)` returns `p` with its `z`
component replaced by `0`; in particular the two functions are exact mutual
inverses (a pure reflection of the vertical axis, no scaling) on the world
plane `z = 0`, and the `x`/`y` components of every point are preserved
exactly. -/
theorem c4_roundtrip_amended (ti : TiledImage) (p : V3) :
    ti.image_to_world (ti.world_to_image p) = ⟨p.x, p.y, 0⟩ := by
  rw [TiledImage.world_to_image_eq, TiledImage.image_to_world_eq]
  norm_num

/-! ## C6 — mouse mode selection and the planar camera -/

/-- C6 counterexample.  The claim asserts that when the primary (left)
button is held and a non-zero scroll arrives in the same update, the camera
mode passed to `apply` permits both `Pan` and `Zoom` and the orthographic
scale changes by the scroll-derived zoom delta.  In the code,
`mouse_input_system` maps a held left button (right not held) to the mode
`Pan` alone, which does not intersect `Zoom`, and `PanZoomState2d::apply`
then replaces the zoom delta by `1.0`: with initial scale `1`, a scroll of
`+1` (zoom delta `0.9 ≠ 1`) and a non-zero pan delta, the resulting scale is
still `1`. -/
theorem c6_zoom_layering_counterexample :
    mouseCameraMode true false = CameraMode.Pan ∧
    CameraMode.Pan.intersects CameraMode.Zoom = false ∧
    deltaZoomOfWheel 1 ≠ 1 ∧
    (PanZoomState2d.apply (mouseCameraMode true false) ⟨V3.zero, 1⟩ ⟨0, 0⟩ ⟨0, 0⟩
        (deltaZoomOfWheel 1) ⟨5, 0, 0⟩ ⟨1/4, 256⟩ ⟨0, ⟨2713, 1910⟩⟩ none V3.zero 1
        ⟨false, false⟩).scale = 1 := by
  refine ⟨rfl, rfl, by norm_num [deltaZoomOfWheel], ?_⟩
  have hmode : mouseCameraMode true false = CameraMode.Pan := rfl
  rw [hmode]
  have hmax : V2.maxElement ⟨2713, 1910⟩ / (256 : ℚ) = 2713 / 256 := by
    norm_num [V2.maxElement]
  simp only [PanZoomState2d.apply, hmax]
  norm_num [CameraMode.intersects, CameraMode.union, CameraMode.Pan, CameraMode.Zoom,
    V3.zero]

/-- C6 (amended).  With the primary (left) button held and the secondary
not, `mouse_input_system` passes the mode `Pan` alone to `apply` — a mode
that does **not** contain `Zoom` — so a scroll signal arriving in the same
update is ignored by the planar camera: the whole outcome of
`PanZoomState2d::apply` (scale, translation, level, invalidation) is
independent of the scroll-derived zoom delta, while the pan delta is still
applied (the mode contains `Pan`).  `Zoom` mode is selected only when no
single button is held alone (neither button, or both). -/
theorem c6_zoom_layering_amended :
    mouseCameraMode true false = CameraMode.Pan ∧
    CameraMode.Pan.intersects CameraMode.Zoom = false ∧
    CameraMode.Pan.intersects CameraMode.Pan = true ∧
    ∀ (initial_state : PanZoomState2d) (current_pos viewport_centre : V2)
      (delta_zoom delta_zoom' : ℚ) (delta_move : V3)
      (app_settings : AppSettings2d) (app_state : AppState2d)
      (tiled_image : Option TiledImage) (translation0 : V3) (scale0 : ℚ)
      (invalidate0 : Invalidate),
      PanZoomState2d.apply (mouseCameraMode true false) initial_state current_pos
          viewport_centre delta_zoom delta_move app_settings app_state tiled_image
          translation0 scale0 invalidate0 =
        PanZoomState2d.apply (mouseCameraMode true false) initial_state current_pos
          viewport_centre delta_zoom' delta_move app_settings app_state tiled_image
          translation0 scale0 invalidate0 := by
  refine ⟨rfl, rfl, rfl, ?_⟩
  intro initial_state current_pos viewport_centre dz dz' dm s st img tr0 s0 inv0
  have hmode : mouseCameraMode true false = CameraMode.Pan := rfl
  have hzoom : CameraMode.Pan.intersects CameraMode.Zoom = false := rfl
  rw [hmode]
  simp only [PanZoomState2d.apply, hzoom]
  simp

/-! ## C7 — orbit yaw/pitch wrapping -/

/-- The constant `pi32` is positive. -/
lemma pi32_pos : 0 < pi32 := by norm_num [pi32]

/-- The single-pass wrap brings any angle within one turn of the target
interval into `[-PI, PI]`. -/
lemma wrapAngle_mem (a : ℚ) (h1 : -(3 * pi32) ≤ a) (h2 : a ≤ 3 * pi32) :
    -pi32 ≤ wrapAngle a ∧ wrapAngle a ≤ pi32 := by
  have hpi := pi32_pos
  simp only [wrapAngle]
  split_ifs <;> constructor <;> linarith

/-- C7 counterexample.  The claim asserts the post-update yaw and pitch lie
in `(-π, π]` for *any* drag delta.  The wrap is a single conditional
subtraction/addition of one turn, so a pitch drag of `4π` from a level
initial state leaves the stored pitch at `2π`, outside `(-π, π]`. -/
theorem c7_wrap_counterexample :
    (panOrbitApplyAngles CameraMode.Orbit (0, 0) (0, 0) 1 ⟨0, 4 * pi32, 0⟩).2 = 2 * pi32 ∧
    ¬ (2 * pi32 ∈ Set.Ioc (-pi32) pi32) := by
  constructor
  · have hcond : (CameraMode.Orbit.intersects CameraMode.Orbit = true)
        ∧ (⟨0, 4 * pi32, 0⟩ : V3) ≠ V3.zero := by
      refine ⟨rfl, ?_⟩
      intro h
      have := congrArg V3.y h
      simp only [V3.zero] at this
      exact absurd this (by norm_num [pi32])
    rw [panOrbitApplyAngles, if_pos hcond]
    norm_num [wrapAngle, pi32]
  · rw [Set.mem_Ioc]
    push_neg
    intro _
    norm_num [pi32]

/-- C7 (amended).  For every orbit update whose snapshot (initial) and
running angles lie in `[-π, π]` and whose yaw/pitch angle increments
(drag × orbit sensitivity) have magnitude at most one full turn `2π`, the
yaw and pitch stored after `apply` lie in the closed interval `[-π, π]`.
(The closed lower end is forced: an increment landing exactly on `-π` is
kept as `-π`, so `(-π, π]` is not invariant; and without the increment bound
the single-pass wrap cannot reach the interval at all.) -/
theorem c7_wrap_amended (mode : CameraMode) (cur initial : ℚ × ℚ)
    (orbit_sensitivity : ℚ) (delta_move : V3)
    (hc1 : -pi32 ≤ cur.1 ∧ cur.1 ≤ pi32) (hc2 : -pi32 ≤ cur.2 ∧ cur.2 ≤ pi32)
    (hi1 : -pi32 ≤ initial.1 ∧ initial.1 ≤ pi32)
    (hi2 : -pi32 ≤ initial.2 ∧ initial.2 ≤ pi32)
    (hdx : |delta_move.x * orbit_sensitivity| ≤ 2 * pi32)
    (hdy : |delta_move.y * orbit_sensitivity| ≤ 2 * pi32) :
    (-pi32 ≤ (panOrbitApplyAngles mode cur initial orbit_sensitivity delta_move).1
      ∧ (panOrbitApplyAngles mode cur initial orbit_sensitivity delta_move).1 ≤ pi32) ∧
    (-pi32 ≤ (panOrbitApplyAngles mode cur initial orbit_sensitivity delta_move).2
      ∧ (panOrbitApplyAngles mode cur initial orbit_sensitivity delta_move).2 ≤ pi32) := by
  by_cases hcond : (mode.intersects CameraMode.Orbit = true) ∧ delta_move ≠ V3.zero
  · simp only [panOrbitApplyAngles, if_pos hcond]
    rw [abs_le] at hdx hdy
    constructor
    · split_ifs with hflip
      · exact wrapAngle_mem _ (by linarith [hi1.1, hdx.1]) (by linarith [hi1.2, hdx.2])
      · refine wrapAngle_mem _ ?_ ?_ <;> rw [neg_mul] <;>
          [linarith [hi1.1, hdx.2]; linarith [hi1.2, hdx.1]]
    · exact wrapAngle_mem _ (by linarith [hi2.1, hdy.1]) (by linarith [hi2.2, hdy.2])
  · simp only [panOrbitApplyAngles, if_neg hcond]
    exact ⟨hc1, hc2⟩

/-- Concrete hypothesis facts for the C7 witness. -/
lemma zero_in_pi32_range : -pi32 ≤ (0 : ℚ) ∧ (0 : ℚ) ≤ pi32 := by
  constructor <;> norm_num [pi32]

/-- Concrete hypothesis facts for the C7 witness. -/
lemma one_mul_one_le_two_pi32 : |(1 : ℚ) * 1| ≤ 2 * pi32 := by norm_num [pi32]

/-- C7 witness: the amended theorem applied to a concrete orbit update
(unit sensitivity, drag `(1, 1, 0)`, level initial state). -/
theorem c7_wrap_amended_witness :
    (-pi32 ≤ (panOrbitApplyAngles CameraMode.Orbit (0, 0) (0, 0) 1 ⟨1, 1, 0⟩).1
      ∧ (panOrbitApplyAngles CameraMode.Orbit (0, 0) (0, 0) 1 ⟨1, 1, 0⟩).1 ≤ pi32) ∧
    (-pi32 ≤ (panOrbitApplyAngles CameraMode.Orbit (0, 0) (0, 0) 1 ⟨1, 1, 0⟩).2
      ∧ (panOrbitApplyAngles CameraMode.Orbit (0, 0) (0, 0) 1 ⟨1, 1, 0⟩).2 ≤ pi32) :=
  c7_wrap_amended CameraMode.Orbit (0, 0) (0, 0) 1 ⟨1, 1, 0⟩
    zero_in_pi32_range zero_in_pi32_range zero_in_pi32_range zero_in_pi32_range
    one_mul_one_le_two_pi32 one_mul_one_le_two_pi32

/-! ## C9 — the image-request URL builder -/

/-- The `as u32` cast is the identity on whole numbers. -/
lemma ratTruncU32_natCast (n : ℕ) : ratTruncU32 ((n : ℕ) : ℚ) = n := by
  simp [ratTruncU32, Int.floor_natCast]

lemma testImage_levels_ne_nil : testImage.levels ≠ [] := by decide

/-- For a non-empty level list, `get_max_size` is the last level. -/
lemma get_max_size_eq_getLast (ti : TiledImage) (hne : ti.levels ≠ []) :
    ti.get_max_size = (ti.levels.getLast hne).toV2 := by
  simp [TiledImage.get_max_size, List.getLastD_eq_getLast?, List.getLast?_eq_getLast _ hne]

/-- A string containing a comma is never the literal `"full"`. -/
lemma comma_ne_full (s1 s2 : String) : s1 ++ "," ++ s2 ≠ "full" := by
  intro h
  have hmem : ',' ∈ (s1 ++ "," ++ s2).data := by
    rw [String.data_append, String.data_append]
    exact List.mem_append_left _ (List.mem_append_right _ (by decide))
  rw [h] at hmem
  exact absurd hmem (by decide)

/-- C9 (confirmed).  The region token of the produced image-request URL is
the literal `"full"` iff the requested rectangle starts at the origin and
has exactly the full image bounds (the last level's width and height);
otherwise it is the explicit `left,top,width,height` string (which, holding
a comma, can never read `"full"`).  And the concrete scenario: region
`(1,2,3,4)` with target size `(1,2)` on the test endpoint with PNG encoding
yields `https://iiif_end_point/uuid/1,2,3,4/1,2/0/default.png`. -/
theorem c9_region_token (ti : TiledImage) (l t w h : ℕ) (hne : ti.levels ≠ []) :
    (ti.region_string l t w h = "full" ↔
      l = 0 ∧ t = 0 ∧ w = (ti.levels.getLast hne).width
        ∧ h = (ti.levels.getLast hne).height) ∧
    testImage.get_image_url 1 2 3 4 ⟨1, 2⟩ =
      "https://iiif_end_point/uuid/1,2,3,4/1,2/0/default.png" := by
  constructor
  · have hmax : ti.get_max_size = (ti.levels.getLast hne).toV2 := get_max_size_eq_getLast ti hne
    have hx : ratTruncU32 ti.get_max_size.x = (ti.levels.getLast hne).width := by
      rw [hmax]; exact ratTruncU32_natCast _
    have hy : ratTruncU32 ti.get_max_size.y = (ti.levels.getLast hne).height := by
      rw [hmax]; exact ratTruncU32_natCast _
    rw [TiledImage.region_string]
    split_ifs with hcond
    · simp only [true_iff, hx, hy] at hcond ⊢
      exact hcond
    · rw [hx, hy] at hcond
      exact iff_of_false (comma_ne_full _ _) hcond
  · decide

/-- C9 witness: the region-token characterization applied to the test
pyramid with the full-image rectangle `(0, 0, 2713, 1910)`. -/
theorem c9_region_token_witness :
    (testImage.region_string 0 0 2713 1910 = "full" ↔
      0 = 0 ∧ 0 = 0
        ∧ 2713 = (testImage.levels.getLast testImage_levels_ne_nil).width
        ∧ 1910 = (testImage.levels.getLast testImage_levels_ne_nil).height) ∧
    testImage.get_image_url 1 2 3 4 ⟨1, 2⟩ =
      "https://iiif_end_point/uuid/1,2,3,4/1,2/0/default.png" :=
  c9_region_token testImage 0 0 2713 1910 testImage_levels_ne_nil

/-! ## C1 / C5 — pyramid level selection -/

/-- Modelled from the spec: "divides the pyramid's full resolution by that
image-space zoom scale to obtain the pixel resolution actually needed on
screen" — the full-resolution (last level) width divided by the zoom scale,
then cast to `u32`.  (The transform model is a pure reflection, so the
image-space zoom scale equals the world-space one.) -/
def spec_needed_resolution (ti : TiledImage) (world_zoom_scale : ℚ) : ℕ :=
  ratTruncU32 (((ti.levels.getLastD ⟨0, 0⟩).width : ℚ) / world_zoom_scale)

/-- Evaluation rule for the `as u32` cast from explicit bounds. -/
lemma ratTruncU32_eq (q : ℚ) (n : ℕ) (h1 : (n : ℚ) ≤ q) (h2 : q < n + 1) :
    ratTruncU32 q = n := by
  unfold ratTruncU32
  have : ⌊q⌋ = (n : ℤ) := Int.floor_eq_iff.mpr ⟨by exact_mod_cast h1, by exact_mod_cast h2⟩
  rw [this]
  exact Int.toNat_natCast n

/-- For a positive zoom scale, the needed resolution computed by
`get_level_at` through the transform model equals the spec's formulation,
and `get_level_at` is the level-search loop over it. -/
lemma get_level_at_eq (ti : TiledImage) (s : ℚ) (hs : 0 < s) :
    ti.get_level_at s =
      (TiledImage.level_search (spec_needed_resolution ti s) ti.levels 0).getD
        (ti.levels.length - 1) := by
  have hz : (ti.world_to_image (V3.splat s) - ti.world_to_image V3.zero) = ⟨s, -s⟩ := by
    rw [TiledImage.world_to_image_eq, TiledImage.world_to_image_eq]
    show (⟨s - 0, -s - -0⟩ : V2) = _
    norm_num [V3.splat, V3.zero]
  have hx : (ti.get_max_size / (⟨s, -s⟩ : V2)).x = ti.get_max_size.x / s := rfl
  have habs : |ti.get_max_size.x / s| = ti.get_max_size.x / s := by
    refine abs_of_nonneg (div_nonneg ?_ hs.le)
    show (0 : ℚ) ≤ ((ti.levels.getLastD ⟨0, 0⟩).width : ℚ)
    positivity
  simp only [TiledImage.get_level_at, spec_needed_resolution, hz, hx, habs]
  rfl

/-- If the level-search loop finds an index, it is the first qualifying one
(relative to the starting offset `i`). -/
lemma level_search_some {needed : ℕ} :
    ∀ (ls : List Size) (i r : ℕ), TiledImage.level_search needed ls i = some r →
      i ≤ r ∧ r - i < ls.length ∧ needed ≤ (ls.getD (r - i) ⟨0, 0⟩).width ∧
        ∀ j, i ≤ j → j < r → ¬ needed ≤ (ls.getD (j - i) ⟨0, 0⟩).width
  | [], i, r => by simp [TiledImage.level_search]
  | s :: rest, i, r => by
    rw [TiledImage.level_search]
    split_ifs with hw
    · rintro ⟨rfl⟩
      refine ⟨le_refl _, by simp, by simpa using hw, ?_⟩
      intro j h1 h2
      omega
    · intro h
      obtain ⟨ih1, ih2, ih3, ih4⟩ := level_search_some rest (i + 1) r h
      have hri : 1 ≤ r - i := by omega
      refine ⟨by omega, by simp; omega, ?_, ?_⟩
      · have : (s :: rest).getD (r - i) ⟨0, 0⟩ = rest.getD (r - i - 1) ⟨0, 0⟩ := by
          obtain ⟨k, hk⟩ : ∃ k, r - i = k + 1 := ⟨r - i - 1, by omega⟩
          rw [hk]
          simp
        rw [this]
        have : r - i - 1 = r - (i + 1) := by omega
        rw [this]
        exact ih3
      · intro j h1 h2
        rcases Nat.eq_or_lt_of_le h1 with rfl | hlt
        · simpa using hw
        · have : (s :: rest).getD (j - i) ⟨0, 0⟩ = rest.getD (j - (i + 1)) ⟨0, 0⟩ := by
            obtain ⟨k, hk⟩ : ∃ k, j - i = k + 1 := ⟨j - i - 1, by omega⟩
            rw [hk]
            have : k = j - (i + 1) := by omega
            simp [this]
          rw [this]
          exact ih4 j (by omega) h2

/-- If the level-search loop finds nothing, no level qualifies. -/
lemma level_search_none {needed : ℕ} :
    ∀ (ls : List Size) (i : ℕ), TiledImage.level_search needed ls i = none →
      ∀ j, j < ls.length → ¬ needed ≤ (ls.getD j ⟨0, 0⟩).width
  | [], _, _ => by simp
  | s :: rest, i, h => by
    rw [TiledImage.level_search] at h
    split_ifs at h with hw
    intro j hj
    match j with
    | 0 => simpa using hw
    | j + 1 => exact level_search_none rest (i + 1) h j (by simpa using hj)

/-- Needed-resolution values for the three test zoom scales. -/
lemma spec_needed_testImage :
    spec_needed_resolution testImage 1 = 2713 ∧
    spec_needed_resolution testImage 2 = 1356 ∧
    spec_needed_resolution testImage 4 = 678 := by
  refine ⟨?_, ?_, ?_⟩ <;>
    · show ratTruncU32 _ = _
      refine ratTruncU32_eq _ _ ?_ ?_ <;> norm_num [testImage]

/-- The three `get_level_at` scenario values from the source's unit tests. -/
lemma get_level_at_testImage :
    testImage.get_level_at 1 = 2 ∧ testImage.get_level_at 2 = 1 ∧
      testImage.get_level_at 4 = 0 := by
  obtain ⟨h1, h2, h4⟩ := spec_needed_testImage
  refine ⟨?_, ?_, ?_⟩
  · rw [get_level_at_eq testImage 1 one_pos, h1]
    decide
  · rw [get_level_at_eq testImage 2 two_pos, h2]
    decide
  · rw [get_level_at_eq testImage 4 (by norm_num), h4]
    decide

/-- C1 (confirmed).  For every pyramid with a non-empty level list and every
positive world zoom scale, `get_level_at` converts the zoom scale through
the transform model, obtains the needed on-screen resolution
`spec_needed_resolution` (full-resolution width over the zoom scale, as a
`u32`), and returns the lowest level index whose level width is at least
that resolution — below every qualifying index, itself qualifying or else
the last level when no level qualifies; the test pyramid gives levels
`2, 1, 0` at zoom scales `1, 2, 4`, and a single-level pyramid always gives
index `0`. -/
theorem c1_get_level_at (ti : TiledImage) (s : ℚ) (hne : ti.levels ≠ []) (hs : 0 < s) :
    (ti.get_level_at s < ti.levels.length ∧
      (∀ j, j < ti.levels.length →
        spec_needed_resolution ti s ≤ (ti.levels.getD j ⟨0, 0⟩).width →
          ti.get_level_at s ≤ j) ∧
      (spec_needed_resolution ti s ≤ (ti.levels.getD (ti.get_level_at s) ⟨0, 0⟩).width ∨
        (ti.get_level_at s = ti.levels.length - 1 ∧
          ∀ j, j < ti.levels.length →
            ¬ spec_needed_resolution ti s ≤ (ti.levels.getD j ⟨0, 0⟩).width))) ∧
    (testImage.get_level_at 1 = 2 ∧ testImage.get_level_at 2 = 1 ∧
      testImage.get_level_at 4 = 0) ∧
    (∀ (ti' : TiledImage) (s' : ℚ), ti'.levels.length = 1 → ti'.get_level_at s' = 0) := by
  refine ⟨?_, get_level_at_testImage, ?_⟩
  · rw [get_level_at_eq ti s hs]
    rcases hr : TiledImage.level_search (spec_needed_resolution ti s) ti.levels 0 with _ | r
    · have hnone := level_search_none ti.levels 0 hr
      have hlen : 0 < ti.levels.length := List.length_pos.mpr hne
      refine ⟨by simp; omega, ?_, Or.inr ⟨by simp, hnone⟩⟩
      intro j hj hw
      exact absurd hw (hnone j hj)
    · obtain ⟨_, h2, h3, h4⟩ := level_search_some ti.levels 0 r hr
      simp only [Nat.sub_zero] at h2 h3 h4
      refine ⟨by simpa using h2, ?_, Or.inl (by simpa using h3)⟩
      intro j hj hw
      by_contra hlt
      exact h4 j (Nat.zero_le _) (by simpa using not_le.mp hlt) (by simpa using hw)
  · intro ti' s' hlen
    obtain ⟨lv, hlv⟩ : ∃ lv, ti'.levels = [lv] := List.length_eq_one.mp hlen
    simp only [TiledImage.get_level_at, hlv]
    simp only [TiledImage.level_search]
    split_ifs <;> simp

/-- C1 witness: the characterization applied to the test pyramid at zoom
scale `1`. -/
theorem c1_get_level_at_witness :
    (testImage.get_level_at 1 < testImage.levels.length ∧
      (∀ j, j < testImage.levels.length →
        spec_needed_resolution testImage 1 ≤ (testImage.levels.getD j ⟨0, 0⟩).width →
          testImage.get_level_at 1 ≤ j) ∧
      (spec_needed_resolution testImage 1
          ≤ (testImage.levels.getD (testImage.get_level_at 1) ⟨0, 0⟩).width ∨
        (testImage.get_level_at 1 = testImage.levels.length - 1 ∧
          ∀ j, j < testImage.levels.length →
            ¬ spec_needed_resolution testImage 1 ≤ (testImage.levels.getD j ⟨0, 0⟩).width))) ∧
    (testImage.get_level_at 1 = 2 ∧ testImage.get_level_at 2 = 1 ∧
      testImage.get_level_at 4 = 0) ∧
    (∀ (ti' : TiledImage) (s' : ℚ), ti'.levels.length = 1 → ti'.get_level_at s' = 0) :=
  c1_get_level_at testImage 1 testImage_levels_ne_nil one_pos

/-- The `as u32` cast is monotone. -/
lemma ratTruncU32_mono {q q' : ℚ} (h : q ≤ q') : ratTruncU32 q ≤ ratTruncU32 q' :=
  Int.toNat_le_toNat (Int.floor_le_floor h)

/-- The needed on-screen resolution is antitone in the world zoom scale. -/
lemma spec_needed_resolution_antitone (ti : TiledImage) {s1 s2 : ℚ}
    (hs1 : 0 < s1) (h12 : s1 ≤ s2) :
    spec_needed_resolution ti s2 ≤ spec_needed_resolution ti s1 := by
  apply ratTruncU32_mono
  exact div_le_div_of_nonneg_left (by positivity) hs1 h12

/-- Lowering the resolution bound can only move the found level down. -/
lemma level_search_mono {n n' : ℕ} (hn : n' ≤ n) :
    ∀ (ls : List Size) (i r : ℕ), TiledImage.level_search n ls i = some r →
      ∃ r', r' ≤ r ∧ TiledImage.level_search n' ls i = some r'
  | [], i, r => by simp [TiledImage.level_search]
  | s :: rest, i, r => by
    rw [TiledImage.level_search, TiledImage.level_search]
    split_ifs with h1 h2 h2
    · rintro ⟨rfl⟩
      exact ⟨i, le_refl i, rfl⟩
    · exact absurd (le_trans hn h1) h2
    · intro h
      have hge := (level_search_some rest (i + 1) r h).1
      exact ⟨i, by omega, rfl⟩
    · intro h
      obtain ⟨r', hr', hsearch⟩ := level_search_mono hn rest (i + 1) r h
      exact ⟨r', hr', hsearch⟩

/-- C5 (confirmed).  For every pyramid with a non-empty level list and all
positive world zoom scales `s1 ≤ s2`, `get_level_at s2 ≤ get_level_at s1`:
the selected level index is monotonically non-increasing in the zoom
scale. -/
theorem c5_get_level_at_monotone (ti : TiledImage) (s1 s2 : ℚ)
    (_hne : ti.levels ≠ []) (hs1 : 0 < s1) (h12 : s1 ≤ s2) :
    ti.get_level_at s2 ≤ ti.get_level_at s1 := by
  have hs2 : 0 < s2 := lt_of_lt_of_le hs1 h12
  rw [get_level_at_eq ti s1 hs1, get_level_at_eq ti s2 hs2]
  have hn : spec_needed_resolution ti s2 ≤ spec_needed_resolution ti s1 :=
    spec_needed_resolution_antitone ti hs1 h12
  rcases h1 : TiledImage.level_search (spec_needed_resolution ti s1) ti.levels 0 with _ | r1
  · rcases h2 : TiledImage.level_search (spec_needed_resolution ti s2) ti.levels 0 with _ | r2
    · simp
    · obtain ⟨_, hlen, -, -⟩ := level_search_some ti.levels 0 r2 h2
      simp only [Option.getD_some, Option.getD_none]
      omega
  · obtain ⟨r2, hle, h2⟩ := level_search_mono hn ti.levels 0 r1 h1
    rw [h2]
    simpa using hle

/-- C5 witness: monotonicity applied to the test pyramid at zoom scales
`1 ≤ 2`. -/
theorem c5_get_level_at_monotone_witness :
    testImage.get_level_at 2 ≤ testImage.get_level_at 1 :=
  c5_get_level_at_monotone testImage 1 2 testImage_levels_ne_nil one_pos one_le_two

/-! ## C2 — required tiles and their index ranges -/

/-- A surviving tile's index is the cell it was built from. -/
lemma mkRequiredTile_index {ti : TiledImage} {level : ℕ} {ims : V2} {x y : ℕ} {t : Tile}
    (h : TiledImage.mkRequiredTile ti level ims x y = some t) : t.index = ⟨x, y, level⟩ := by
  rw [TiledImage.mkRequiredTile] at h
  split_ifs at h
  simp only [Option.some.injEq] at h
  rw [← h]

/-- The survivors of a cell list, in visit order. -/
def survivingTiles (ti : TiledImage) (level : ℕ) (ims : V2) (cells : List (ℕ × ℕ)) :
    List Tile :=
  cells.filterMap fun c => TiledImage.mkRequiredTile ti level ims c.1 c.2

/-- The required-tile loop appends the survivors to the tile accumulator and
folds `min`/`max` of the survivors' x/y indices into the four range
accumulators. -/
lemma requiredTilesLoop_spec (ti : TiledImage) (level : ℕ) (ims : V2) :
    ∀ (cells : List (ℕ × ℕ)) (t0 : List Tile) (a b c d : ℕ),
      TiledImage.requiredTilesLoop ti level ims cells (t0, a, b, c, d) =
        (t0 ++ survivingTiles ti level ims cells,
          ((survivingTiles ti level ims cells).map (fun t => t.index.x)).foldl min a,
          ((survivingTiles ti level ims cells).map (fun t => t.index.y)).foldl min b,
          ((survivingTiles ti level ims cells).map (fun t => t.index.x)).foldl max c,
          ((survivingTiles ti level ims cells).map (fun t => t.index.y)).foldl max d)
  | [], t0, a, b, c, d => by simp [TiledImage.requiredTilesLoop, survivingTiles]
  | cl :: cs, t0, a, b, c, d => by
    rw [TiledImage.requiredTilesLoop]
    rcases h : TiledImage.mkRequiredTile ti level ims cl.1 cl.2 with _ | t
    · have hsurv : survivingTiles ti level ims (cl :: cs) = survivingTiles ti level ims cs := by
        simp [survivingTiles, List.filterMap_cons, h]
      rw [hsurv]
      exact requiredTilesLoop_spec ti level ims cs t0 a b c d
    · have hsurv : survivingTiles ti level ims (cl :: cs)
          = t :: survivingTiles ti level ims cs := by
        simp [survivingTiles, List.filterMap_cons, h]
      have hidx := mkRequiredTile_index h
      dsimp only
      rw [hsurv, requiredTilesLoop_spec ti level ims cs (t0 ++ [t])
        (min a cl.1) (min b cl.2) (max c cl.1) (max d cl.2)]
      simp [hidx, List.append_assoc]

/-- Folding `min` into a `0` accumulator over naturals stays `0`. -/
lemma foldl_min_zero : ∀ l : List ℕ, l.foldl min 0 = 0
  | [] => rfl
  | x :: xs => by rw [List.foldl_cons, Nat.zero_min]; exact foldl_min_zero xs

/-- Rewriting `get_required_tiles` in terms of the survivors of its cell list. -/
lemma get_required_tiles_eq (ti : TiledImage) (level : ℕ) (wmin wmax : V3) :
    ti.get_required_tiles level wmin wmax =
      (survivingTiles ti level ti.get_max_size (ti.required_cells level wmin wmax),
        (0, ((survivingTiles ti level ti.get_max_size
          (ti.required_cells level wmin wmax)).map (fun t => t.index.x)).foldl max 0),
        (0, ((survivingTiles ti level ti.get_max_size
          (ti.required_cells level wmin wmax)).map (fun t => t.index.y)).foldl max 0)) := by
  rw [TiledImage.get_required_tiles]
  rw [requiredTilesLoop_spec ti level ti.get_max_size
    (ti.required_cells level wmin wmax) [] 0 0 0 0]
  simp [foldl_min_zero]

/-- The `as u32` cast of `0`. -/
lemma ratTruncU32_zero : ratTruncU32 0 = 0 := by
  simpa using ratTruncU32_natCast 0

lemma testImage_max_size : testImage.get_max_size = ⟨2713, 1910⟩ := rfl

lemma testImage_scale2 : testImage.world_to_image_scale 2 = 1 := by
  show ((2713 : ℕ) : ℚ) / ((2713 : ℕ) : ℚ) = 1
  norm_num

lemma testImage_tile_size_v2 : testImage.tile_size.toV2 = ⟨1024, 1024⟩ := rfl

/-- Per-cell evaluation of the C2 scenario's loop body. -/
lemma c2_mk_eval :
    testImage.mkRequiredTile 2 testImage.get_max_size 0 0
        = some ⟨⟨0, 0, 2⟩, ⟨⟨0, 0⟩, ⟨1024, 1024⟩⟩, ⟨⟨0, -1024⟩, ⟨1024, 0⟩⟩⟩ ∧
    testImage.mkRequiredTile 2 testImage.get_max_size 1 0
        = some ⟨⟨1, 0, 2⟩, ⟨⟨1024, 0⟩, ⟨2048, 1024⟩⟩, ⟨⟨1024, -1024⟩, ⟨2048, 0⟩⟩⟩ ∧
    testImage.mkRequiredTile 2 testImage.get_max_size 0 1
        = some ⟨⟨0, 1, 2⟩, ⟨⟨0, 1024⟩, ⟨1024, 1910⟩⟩, ⟨⟨0, -1910⟩, ⟨1024, -1024⟩⟩⟩ ∧
    testImage.mkRequiredTile 2 testImage.get_max_size 1 1
        = some ⟨⟨1, 1, 2⟩, ⟨⟨1024, 1024⟩, ⟨2048, 1910⟩⟩, ⟨⟨1024, -1910⟩, ⟨2048, -1024⟩⟩⟩ := by
  refine ⟨?_, ?_, ?_, ?_⟩ <;>
    · simp only [TiledImage.mkRequiredTile, TiledImage.tile_to_image, testImage_scale2,
        testImage_max_size, testImage_tile_size_v2, TileIndex.toV2, Rect.from_corners,
        Rect.width, Rect.height, TiledImage.image_to_world_eq, V3.truncate, V2.vmin,
        V2.vmax, V2.mul_x, V2.mul_y, V2.smul_x, V2.smul_y]
      norm_num

/-- Concrete evaluation of the C2 scenario: viewport `(-2000,-2000)` to
`(2000,2000)` at level 2 of the test pyramid. -/
lemma c2_scenario_eval :
    (testImage.get_required_tiles 2 ⟨-2000, -2000, 0⟩ ⟨2000, 2000, 0⟩).1.map
        (fun t => t.index) = [⟨0, 0, 2⟩, ⟨1, 0, 2⟩, ⟨0, 1, 2⟩, ⟨1, 1, 2⟩] ∧
      (testImage.get_required_tiles 2 ⟨-2000, -2000, 0⟩ ⟨2000, 2000, 0⟩).2.1 = (0, 1) ∧
      (testImage.get_required_tiles 2 ⟨-2000, -2000, 0⟩ ⟨2000, 2000, 0⟩).2.2 = (0, 1) := by
  have hcells : testImage.required_cells 2 ⟨-2000, -2000, 0⟩ ⟨2000, 2000, 0⟩
      = [(0, 0), (1, 0), (0, 1), (1, 1)] := by
    simp only [TiledImage.required_cells, TiledImage.world_to_image_eq,
      TiledImage.image_to_tile, TiledImage.world_to_image_scale, TiledImage.get_max_size,
      testImage, Size.toV2, V2.clamp, V2.vmin, V2.vmax, V2.zero, V2.div_x, V2.div_y,
      V2.mul_x, V2.mul_y, V2.smul_x, V2.smul_y, V2.ssub_x, V2.ssub_y]
    norm_num
    have h1 : ratTruncU32 (125 / 64 : ℚ) = 1 :=
      ratTruncU32_eq _ 1 (by norm_num) (by norm_num)
    have h2 : ratTruncU32 (1909 / 1024 : ℚ) = 1 :=
      ratTruncU32_eq _ 1 (by norm_num) (by norm_num)
    rw [ratTruncU32_zero, h1, h2]
    decide
  rw [get_required_tiles_eq, hcells]
  obtain ⟨hm00, hm10, hm01, hm11⟩ := c2_mk_eval
  have hsurv : survivingTiles testImage 2 testImage.get_max_size
      [(0, 0), (1, 0), (0, 1), (1, 1)]
      = [⟨⟨0, 0, 2⟩, ⟨⟨0, 0⟩, ⟨1024, 1024⟩⟩, ⟨⟨0, -1024⟩, ⟨1024, 0⟩⟩⟩,
         ⟨⟨1, 0, 2⟩, ⟨⟨1024, 0⟩, ⟨2048, 1024⟩⟩, ⟨⟨1024, -1024⟩, ⟨2048, 0⟩⟩⟩,
         ⟨⟨0, 1, 2⟩, ⟨⟨0, 1024⟩, ⟨1024, 1910⟩⟩, ⟨⟨0, -1910⟩, ⟨1024, -1024⟩⟩⟩,
         ⟨⟨1, 1, 2⟩, ⟨⟨1024, 1024⟩, ⟨2048, 1910⟩⟩, ⟨⟨1024, -1910⟩, ⟨2048, -1024⟩⟩⟩] := by
    simp [survivingTiles, List.filterMap_cons, hm00, hm10, hm01, hm11]
  rw [hsurv]
  refine ⟨rfl, rfl, rfl⟩

/-- C2 counterexample.  The claim asserts the returned inclusive x range
equals `[minimum x index among returned tiles, maximum x index]`.  The
source initialises all four range accumulators to `0` *before* folding
`min`/`max` over the produced tiles, so a viewport whose tiles all have
positive indices still reports a lower bound of `0`: the world viewport
`(1100,-1900)–(2000,-1100)` at level 2 of the test pyramid produces exactly
the one tile `(1,1,2)` (minimum x index `1`), yet the returned x range is
`0..=1`. -/
theorem c2_ranges_counterexample :
    ((testImage.get_required_tiles 2 ⟨1100, -1900, 0⟩ ⟨2000, -1100, 0⟩).1.map
        (fun t => t.index)) = [⟨1, 1, 2⟩] ∧
    (testImage.get_required_tiles 2 ⟨1100, -1900, 0⟩ ⟨2000, -1100, 0⟩).2.1 = (0, 1) ∧
    ((testImage.get_required_tiles 2 ⟨1100, -1900, 0⟩ ⟨2000, -1100, 0⟩).1.map
        (fun t => t.index.x)).min? ≠
      some (testImage.get_required_tiles 2 ⟨1100, -1900, 0⟩ ⟨2000, -1100, 0⟩).2.1.1 := by
  have hcells : testImage.required_cells 2 ⟨1100, -1900, 0⟩ ⟨2000, -1100, 0⟩ = [(1, 1)] := by
    simp only [TiledImage.required_cells, TiledImage.world_to_image_eq,
      TiledImage.image_to_tile, TiledImage.world_to_image_scale, TiledImage.get_max_size,
      testImage, Size.toV2, V2.clamp, V2.vmin, V2.vmax, V2.zero, V2.div_x, V2.div_y,
      V2.mul_x, V2.mul_y, V2.smul_x, V2.smul_y, V2.ssub_x, V2.ssub_y]
    norm_num
    have h1 : ratTruncU32 (275 / 256 : ℚ) = 1 :=
      ratTruncU32_eq _ 1 (by norm_num) (by norm_num)
    have h2 : ratTruncU32 (125 / 64 : ℚ) = 1 :=
      ratTruncU32_eq _ 1 (by norm_num) (by norm_num)
    have h3 : ratTruncU32 (475 / 256 : ℚ) = 1 :=
      ratTruncU32_eq _ 1 (by norm_num) (by norm_num)
    rw [h1, h2, h3]
    decide
  obtain ⟨-, -, -, hm11⟩ := c2_mk_eval
  have hsurv : survivingTiles testImage 2 testImage.get_max_size [(1, 1)]
      = [⟨⟨1, 1, 2⟩, ⟨⟨1024, 1024⟩, ⟨2048, 1910⟩⟩, ⟨⟨1024, -1910⟩, ⟨2048, -1024⟩⟩⟩] := by
    simp [survivingTiles, List.filterMap_cons, hm11]
  rw [get_required_tiles_eq, hcells, hsurv]
  refine ⟨rfl, rfl, by decide⟩

/-- C2 (amended).  For every pyramid descriptor, target level and world
viewport, the index ranges returned by `get_required_tiles` have lower bound
`min(0, ·)` of the produced indices — hence always `0`, since indices are
unsigned — and upper bound the maximum x (resp. y) index among the returned
tiles (`0` when none); the lower bound therefore equals the minimum index
among the returned tiles only when a tile with index `0` on that axis is
produced, as in the concrete scenario: viewport `(-2000,-2000)–(2000,2000)`
at level 2 of the test pyramid returns exactly the four tiles
`(0,0,2),(1,0,2),(0,1,2),(1,1,2)` with ranges `0..=1` on both axes. -/
theorem c2_required_tiles_ranges (ti : TiledImage) (level : ℕ) (wmin wmax : V3) :
    ((ti.get_required_tiles level wmin wmax).2.1.1 = 0 ∧
     (ti.get_required_tiles level wmin wmax).2.2.1 = 0 ∧
     (ti.get_required_tiles level wmin wmax).2.1.2 =
       (((ti.get_required_tiles level wmin wmax).1.map (fun t => t.index.x)).foldl max 0) ∧
     (ti.get_required_tiles level wmin wmax).2.2.2 =
       (((ti.get_required_tiles level wmin wmax).1.map (fun t => t.index.y)).foldl max 0)) ∧
    ((testImage.get_required_tiles 2 ⟨-2000, -2000, 0⟩ ⟨2000, 2000, 0⟩).1.map
        (fun t => t.index) = [⟨0, 0, 2⟩, ⟨1, 0, 2⟩, ⟨0, 1, 2⟩, ⟨1, 1, 2⟩] ∧
      (testImage.get_required_tiles 2 ⟨-2000, -2000, 0⟩ ⟨2000, 2000, 0⟩).2.1 = (0, 1) ∧
      (testImage.get_required_tiles 2 ⟨-2000, -2000, 0⟩ ⟨2000, 2000, 0⟩).2.2 = (0, 1)) := by
  constructor
  · rw [get_required_tiles_eq]
    exact ⟨rfl, rfl, rfl, rfl⟩
  · exact c2_scenario_eval

/-! ## C3 — the prune pass never evicts protected in-view tiles -/

/-- The recomputed per-level range list resolves, at any protected level,
to that level's required-tile computation. -/
lemma allRequired_get (ti : TiledImage) (active : ℕ) (wmin wmax : V3) {z : ℕ}
    (hz : z ≤ active) :
    ((List.range (active + 1)).map fun level =>
        some (ti.get_required_tiles level wmin wmax))[z]?
      = some (some (ti.get_required_tiles z wmin wmax)) := by
  rw [List.getElem?_map, List.getElem?_range (by omega)]
  rfl

/-- Every index evicted by the prune pass belongs to a queried tile that the
out-of-view test accepted. -/
lemma prune_mem_out_of_view {cache : List (TileIndex × TileCacheItem)}
    {tiles : List PruneTile} {budget active : ℕ} {ti : TiledImage} {wmin wmax : V3}
    {idx : TileIndex}
    (hmem : idx ∈ prune_tiles_system cache tiles budget active ti wmin wmax) :
    ∃ t ∈ tiles, t.index = idx ∧
      isOutOfView ((List.range (active + 1)).map fun level =>
        some (ti.get_required_tiles level wmin wmax)) t = true := by
  rw [prune_tiles_system] at hmem
  split_ifs at hmem with hsize
  · exact absurd hmem (List.not_mem_nil idx)
  · rw [List.mem_append] at hmem
    rcases hmem with hmem | hmem
    · obtain ⟨t, ht, rfl⟩ := List.mem_map.mp hmem
      rw [List.mem_filter] at ht
      obtain ⟨ht, -⟩ := ht
      rw [List.mem_filter, Bool.and_eq_true] at ht
      exact ⟨t, ht.1, rfl, ht.2.1⟩
    · rw [apply_ite (fun l => idx ∈ l)] at hmem
      split_ifs at hmem
      · obtain ⟨p, hp, rfl⟩ := List.mem_map.mp hmem
        have hp' := List.mem_of_mem_take hp
        rw [(List.perm_insertionSort lastVisibleLE _).mem_iff] at hp'
        obtain ⟨t, ht, hmk⟩ := List.mem_filterMap.mp hp'
        rw [List.mem_filter] at ht
        obtain ⟨ht, -⟩ := ht
        rw [List.mem_filter, Bool.and_eq_true] at ht
        rcases hcg : cacheGet cache t.index with _ | item
        · rw [hcg] at hmk
          exact Option.noConfusion hmk
        · rw [hcg] at hmk
          simp only [Option.map_some'] at hmk
          rw [Option.some_inj] at hmk
          exact ⟨t, ht.1, congrArg Prod.fst hmk, ht.2.1⟩
      · exact absurd hmem (List.not_mem_nil idx)

/-- C3 (confirmed).  A single prune pass never evicts a cached tile whose
`(x, y)` index lies inside the required-tile index ranges recomputed for its
own level, for any protected level from `0` up to the active level: every
evicted index at a protected level fails the range test for that level (so
only tiles outside those ranges, or at levels above the active one, are ever
removed — and the cache may stay above budget when such candidates run
out). -/
theorem c3_prune_never_evicts_protected (cache : List (TileIndex × TileCacheItem))
    (tiles : List PruneTile) (budget active : ℕ) (ti : TiledImage) (wmin wmax : V3)
    (idx : TileIndex)
    (hmem : idx ∈ prune_tiles_system cache tiles budget active ti wmin wmax)
    (hlev : idx.z ≤ active) :
    ¬ ((ti.get_required_tiles idx.z wmin wmax).2.1.1 ≤ idx.x ∧
       idx.x ≤ (ti.get_required_tiles idx.z wmin wmax).2.1.2 ∧
       (ti.get_required_tiles idx.z wmin wmax).2.2.1 ≤ idx.y ∧
       idx.y ≤ (ti.get_required_tiles idx.z wmin wmax).2.2.2) := by
  obtain ⟨t, -, rfl, hout⟩ := prune_mem_out_of_view hmem
  rw [isOutOfView, TileIndex.level, allRequired_get ti active wmin wmax hlev] at hout
  rcases hreq : ti.get_required_tiles t.index.z wmin wmax with ⟨ts, rx, ry⟩
  rw [hreq] at hout
  simp only [Bool.or_eq_true, Bool.not_eq_eq_eq_not, Bool.not_true, Bool.and_eq_true,
    decide_eq_true_eq, Bool.and_eq_false_iff, decide_eq_false_iff_not] at hout
  rintro ⟨h1, h2, h3, h4⟩
  rcases hout with hout | hout <;> rcases hout with hout | hout <;> exact hout (by assumption)

/-- A minimal single-level pyramid for exercising the prune pass. -/
def pruneTestImage : TiledImage where
  iiif_endpoint := "https://iiif_end_point/prune"
  levels := [⟨1024, 1024⟩]
  tile_size := ⟨1024, 1024⟩
  image_format := .png
  supported_features := []
  optional_sizes := []

lemma pruneTestImage_scale0 : pruneTestImage.world_to_image_scale 0 = 1 := by
  show ((1024 : ℕ) : ℚ) / ((1024 : ℕ) : ℚ) = 1
  norm_num

lemma pruneTestImage_max_size : pruneTestImage.get_max_size = ⟨1024, 1024⟩ := rfl

lemma pruneTestImage_tile_size_v2 : pruneTestImage.tile_size.toV2 = ⟨1024, 1024⟩ := rfl

/-- Required tiles of the prune fixture: the viewport `(0,0)–(100,-100)`
needs only tile `(0,0)` of level 0, with ranges `0..=0`. -/
lemma pruneTestImage_required :
    pruneTestImage.get_required_tiles 0 ⟨0, 0, 0⟩ ⟨100, -100, 0⟩
      = ([⟨⟨0, 0, 0⟩, ⟨⟨0, 0⟩, ⟨1024, 1024⟩⟩, ⟨⟨0, -1024⟩, ⟨1024, 0⟩⟩⟩],
          (0, 0), (0, 0)) := by
  have hcells : pruneTestImage.required_cells 0 ⟨0, 0, 0⟩ ⟨100, -100, 0⟩ = [(0, 0)] := by
    simp only [TiledImage.required_cells, TiledImage.world_to_image_eq,
      TiledImage.image_to_tile, TiledImage.world_to_image_scale, TiledImage.get_max_size,
      pruneTestImage, Size.toV2, V2.clamp, V2.vmin, V2.vmax, V2.zero, V2.div_x, V2.div_y,
      V2.mul_x, V2.mul_y, V2.smul_x, V2.smul_y, V2.ssub_x, V2.ssub_y]
    norm_num
    have h1 : ratTruncU32 (25 / 256 : ℚ) = 0 :=
      ratTruncU32_eq _ 0 (by norm_num) (by norm_num)
    rw [ratTruncU32_zero, h1]
    decide
  have hmk : pruneTestImage.mkRequiredTile 0 pruneTestImage.get_max_size 0 0
      = some ⟨⟨0, 0, 0⟩, ⟨⟨0, 0⟩, ⟨1024, 1024⟩⟩, ⟨⟨0, -1024⟩, ⟨1024, 0⟩⟩⟩ := by
    simp only [TiledImage.mkRequiredTile, TiledImage.tile_to_image, pruneTestImage_scale0,
      pruneTestImage_max_size, pruneTestImage_tile_size_v2, TileIndex.toV2,
      Rect.from_corners, Rect.width, Rect.height, TiledImage.image_to_world_eq,
      V3.truncate, V2.vmin, V2.vmax, V2.mul_x, V2.mul_y, V2.smul_x, V2.smul_y]
    norm_num
  rw [get_required_tiles_eq, hcells]
  have hsurv : survivingTiles pruneTestImage 0 pruneTestImage.get_max_size [(0, 0)]
      = [⟨⟨0, 0, 0⟩, ⟨⟨0, 0⟩, ⟨1024, 1024⟩⟩, ⟨⟨0, -1024⟩, ⟨1024, 0⟩⟩⟩] := by
    simp [survivingTiles, List.filterMap_cons, hmk]
  rw [hsurv]
  simp

/-- The cache of the prune fixture: two entries against a budget of one. -/
def c3cache : List (TileIndex × TileCacheItem) := [(⟨5, 5, 0⟩, ⟨0⟩), (⟨0, 0, 0⟩, ⟨0⟩)]

/-- The queried tiles of the prune fixture: one unloaded tile at the active
level, far outside the viewport. -/
def c3tiles : List PruneTile := [⟨⟨5, 5, 0⟩, false⟩]

/-- Concrete prune run: the out-of-view unloaded tile `(5,5,0)` is evicted. -/
lemma c3_prune_eval :
    prune_tiles_system c3cache c3tiles 1 0 pruneTestImage ⟨0, 0, 0⟩ ⟨100, -100, 0⟩
      = [⟨5, 5, 0⟩] := by
  rw [prune_tiles_system]
  rw [if_neg (by decide)]
  simp only [List.range_succ, List.range_zero, List.nil_append, List.map_cons,
    List.map_nil, pruneTestImage_required]
  simp [isOutOfView, cacheGet, c3cache, c3tiles, TileIndex.level]

/-- The concrete eviction, as a membership fact. -/
lemma c3_witness_mem :
    (⟨5, 5, 0⟩ : TileIndex) ∈
      prune_tiles_system c3cache c3tiles 1 0 pruneTestImage ⟨0, 0, 0⟩ ⟨100, -100, 0⟩ := by
  rw [c3_prune_eval]
  exact List.mem_singleton.mpr rfl

/-- C3 witness: the invariant applied to the concrete prune run — the
evicted tile `(5,5,0)` sits at a protected level, so it must fail the range
test, which it does. -/
theorem c3_prune_never_evicts_protected_witness :
    ¬ ((pruneTestImage.get_required_tiles (⟨5, 5, 0⟩ : TileIndex).z
          ⟨0, 0, 0⟩ ⟨100, -100, 0⟩).2.1.1 ≤ (⟨5, 5, 0⟩ : TileIndex).x ∧
       (⟨5, 5, 0⟩ : TileIndex).x ≤ (pruneTestImage.get_required_tiles
          (⟨5, 5, 0⟩ : TileIndex).z ⟨0, 0, 0⟩ ⟨100, -100, 0⟩).2.1.2 ∧
       (pruneTestImage.get_required_tiles (⟨5, 5, 0⟩ : TileIndex).z
          ⟨0, 0, 0⟩ ⟨100, -100, 0⟩).2.2.1 ≤ (⟨5, 5, 0⟩ : TileIndex).y ∧
       (⟨5, 5, 0⟩ : TileIndex).y ≤ (pruneTestImage.get_required_tiles
          (⟨5, 5, 0⟩ : TileIndex).z ⟨0, 0, 0⟩ ⟨100, -100, 0⟩).2.2.2) :=
  c3_prune_never_evicts_protected c3cache c3tiles 1 0 pruneTestImage
    ⟨0, 0, 0⟩ ⟨100, -100, 0⟩ ⟨5, 5, 0⟩ c3_witness_mem (Nat.le_refl 0)

/-! ## C8 — constructor fallbacks and errors -/

/-- A successful `ImageInfo::try_from` preserves the parsed info. -/
lemma ImageInfo.try_from_info {info : IiifImageInfoV2} {ii : ImageInfo}
    (hok : ImageInfo.try_from info = .ok ii) : ii.iiif_image_info = info := by
  rw [ImageInfo.try_from] at hok
  split_ifs at hok
  rcases hexp : expandProfiles info.profile with e | ps <;> rw [hexp] at hok
  · exact absurd hok (by simp [Bind.bind, Except.bind])
  · simp only [Bind.bind, Except.bind, Except.ok.injEq] at hok
    rw [← hok]

/-- Without tile metadata, the tile size defaults to 512×512. -/
lemma get_tile_size_default {ii : ImageInfo} (h : ii.iiif_image_info.tiles = none) :
    ii.get_tile_size = ⟨512, 512⟩ := by
  rw [ImageInfo.get_tile_size, h]

/-- An image info whose profile metadata is missing; tile metadata present. -/
def c8infoNoProfile : IiifImageInfoV2 where
  width := 100
  height := 100
  sizes := none
  tiles := some [⟨256, some 256, [1, 2]⟩]
  profile := []

/-- C8 counterexample.  The claim asserts the constructor succeeds for
*every* input whose tile **or** profile metadata is missing.  Missing
profile metadata is in fact a hard error: `ImageInfo::try_from` rejects an
empty profile list with `IiifMissingInfo("Missing profile")`, which
`TiledImage::try_from_json` propagates. -/
theorem c8_missing_profile_counterexample :
    TiledImage.try_from_image_info c8infoNoProfile "https://iiif_end_point/uuid"
      = .error (.iiifMissingInfo "Missing profile") := rfl

/-- C8 (amended).  Missing *tile* metadata never causes the constructor to
fail: for every image info without tile metadata whose profile metadata
expands successfully and advertises at least one image format, the
constructor succeeds, and whenever the profile features select tiling
(`RegionByPx` and `SizeByWh` both supported) the tile size falls back to the
512×512 default.  Missing *profile* metadata, by contrast, is an error. -/
theorem c8_missing_tiles_falls_back (info : IiifImageInfoV2) (ep : String)
    (ii : ImageInfo) (d : IiifProfileDetails) (fmt : IiifImageFormat)
    (htiles : info.tiles = none)
    (hok : ImageInfo.try_from info = .ok ii)
    (hd : ii.get_profile_details.head? = some d)
    (hf : d.get_formats.head? = some fmt) :
    ∃ ti, TiledImage.try_from_image_info info ep = .ok ti ∧
      (((ii.get_profile_details.map IiifProfileDetails.get_supported_features).flatten.contains
          IiifFeature.regionByPx
        ∧ (ii.get_profile_details.map IiifProfileDetails.get_supported_features).flatten.contains
          IiifFeature.sizeByWh) →
        ti.tile_size = ⟨512, 512⟩) := by
  have hinfo : ii.iiif_image_info = info := ImageInfo.try_from_info hok
  rw [TiledImage.try_from_image_info]
  rw [hok]
  simp only [Bind.bind, Except.bind, hd, hf]
  split_ifs with hfeat
  · refine ⟨_, rfl, fun _ => ?_⟩
    exact get_tile_size_default (by rw [hinfo]; exact htiles)
  · exact ⟨_, rfl, fun hc => absurd hc hfeat⟩

/-- A concrete image info with no tile metadata and a tiling-capable
profile. -/
def c8info : IiifImageInfoV2 where
  width := 100
  height := 100
  sizes := none
  tiles := none
  profile := [.profileDetails ⟨some [.png], some [], some [.regionByPx, .sizeByWh]⟩]

lemma c8info_try_from :
    ImageInfo.try_from c8info
      = .ok ⟨c8info, [⟨some [.png], some [], some [.regionByPx, .sizeByWh]⟩]⟩ := rfl

/-- C8 witness: the amended theorem applied to the concrete
tiling-capable, tile-metadata-free info. -/
theorem c8_missing_tiles_falls_back_witness :
    ∃ ti, TiledImage.try_from_image_info c8info "https://iiif_end_point/uuid" = .ok ti ∧
      ((((⟨c8info, [⟨some [.png], some [], some [.regionByPx, .sizeByWh]⟩]⟩ :
            ImageInfo).get_profile_details.map
            IiifProfileDetails.get_supported_features).flatten.contains
          IiifFeature.regionByPx
        ∧ ((⟨c8info, [⟨some [.png], some [], some [.regionByPx, .sizeByWh]⟩]⟩ :
            ImageInfo).get_profile_details.map
            IiifProfileDetails.get_supported_features).flatten.contains
          IiifFeature.sizeByWh) →
        ti.tile_size = ⟨512, 512⟩) :=
  c8_missing_tiles_falls_back c8info "https://iiif_end_point/uuid"
    ⟨c8info, [⟨some [.png], some [], some [.regionByPx, .sizeByWh]⟩]⟩
    ⟨some [.png], some [], some [.regionByPx, .sizeByWh]⟩ .png
    rfl c8info_try_from rfl rfl

/-! ## C10 — the constructor's level list -/

/-- The scale factors the constructor consumes: those of the first tile
spec, when present. -/
def scale_factors_of (info : IiifImageInfoV2) : List ℕ :=
  match info.tiles with
  | some (t :: _) => t.scale_factors
  | _ => []

/-- If a product of componentwise-smaller factors reaches the full product,
the factors are equal (positive case). -/
lemma eq_of_le_of_mul_eq {a b w h : ℕ} (ha : a ≤ w) (hb : b ≤ h)
    (hw : 0 < w) (hh : 0 < h) (heq : a * b = w * h) : a = w ∧ b = h := by
  have h1 : a * b ≤ a * h := Nat.mul_le_mul_left a hb
  have h2 : a * h ≤ w * h := Nat.mul_le_mul_right h ha
  have hah : a * h = w * h := le_antisymm h2 (heq ▸ h1)
  have haw : a = w := Nat.eq_of_mul_eq_mul_right hh hah
  refine ⟨haw, ?_⟩
  exact Nat.eq_of_mul_eq_mul_left (haw ▸ hw) (heq.trans hah.symm)

/-- In a `Pairwise`-sorted list every element is the last one or relates to
it. -/
lemma pairwise_getLast_rel {α : Type} {r : α → α → Prop} :
    ∀ (l : List α) (hne : l ≠ []), l.Pairwise r →
      ∀ x ∈ l, x = l.getLast hne ∨ r x (l.getLast hne)
  | [], hne, _ => absurd rfl hne
  | a :: t, hne, hsorted => by
    intro x hx
    rcases t with _ | ⟨b, t'⟩
    · rcases List.mem_singleton.mp hx with rfl
      exact Or.inl (by simp)
    · rw [List.pairwise_cons] at hsorted
      rcases List.mem_cons.mp hx with rfl | hx'
      · refine Or.inr ?_
        have hmem : (b :: t').getLast (by simp) ∈ b :: t' := List.getLast_mem _
        have h := hsorted.1 _ hmem
        simpa [List.getLast_cons] using h
      · have := pairwise_getLast_rel (b :: t') (by simp) hsorted.2 x hx'
        simpa [List.getLast_cons] using this

/-- In any list where `full` is the unique element of maximal area, the
stable ascending-by-area sort puts `full` last. -/
lemma insertionSort_getLast_max (L0 : List Size) (full : Size)
    (hmem : full ∈ L0)
    (hbound : ∀ x ∈ L0, x.width * x.height ≤ full.width * full.height)
    (huniq : ∀ x ∈ L0, x.width * x.height = full.width * full.height → x = full) :
    (L0.insertionSort sizeAreaLE).getLast? = some full := by
  have hperm := List.perm_insertionSort sizeAreaLE L0
  have hmemL : full ∈ L0.insertionSort sizeAreaLE := hperm.mem_iff.mpr hmem
  have hne : L0.insertionSort sizeAreaLE ≠ [] := List.ne_nil_of_mem hmemL
  have hsorted : List.Pairwise sizeAreaLE (L0.insertionSort sizeAreaLE) :=
    List.sorted_insertionSort sizeAreaLE L0
  set L := L0.insertionSort sizeAreaLE with hL
  have hlast_mem : L.getLast hne ∈ L := List.getLast_mem hne
  have hrel : ∀ x ∈ L, x = L.getLast hne ∨ sizeAreaLE x (L.getLast hne) :=
    pairwise_getLast_rel L hne hsorted
  have hlast_le : (L.getLast hne).width * (L.getLast hne).height
      ≤ full.width * full.height :=
    hbound _ (hperm.mem_iff.mp hlast_mem)
  have hfull_le : full.width * full.height
      ≤ (L.getLast hne).width * (L.getLast hne).height := by
    rcases hrel full hmemL with heq | hle
    · rw [heq]
    · exact hle
  have : L.getLast hne = full :=
    huniq _ (hperm.mem_iff.mp hlast_mem) (le_antisymm hlast_le hfull_le)
  rw [List.getLast?_eq_getLast _ hne, this]

/-- The levels built by `get_tile_scaling_sizes` are non-empty and end with
the full image size, for positive dimensions and positive scale factors. -/
lemma get_tile_scaling_sizes_getLast (ii : ImageInfo)
    (hw : 0 < ii.iiif_image_info.width) (hh : 0 < ii.iiif_image_info.height)
    (hsf : ∀ f ∈ scale_factors_of ii.iiif_image_info, 0 < f) :
    ii.get_tile_scaling_sizes ≠ [] ∧
      ii.get_tile_scaling_sizes.getLast?
        = some ⟨ii.iiif_image_info.width, ii.iiif_image_info.height⟩ := by
  set info := ii.iiif_image_info with hinfo
  set full : Size := ⟨info.width, info.height⟩ with hfull
  rw [ImageInfo.get_tile_scaling_sizes]
  set base : List Size :=
    (match info.tiles with
      | some (tile :: _) => tile.scale_factors.map fun f => ⟨info.width / f, info.height / f⟩
      | _ => ([] : List Size)) with hbase
  have hbase_mem : ∀ x ∈ base, ∃ f, 0 < f ∧ x = ⟨info.width / f, info.height / f⟩ := by
    intro x hx
    rw [hbase] at hx
    rcases htl : info.tiles with _ | l
    · rw [htl] at hx
      exact absurd hx (List.not_mem_nil x)
    · rcases l with _ | ⟨t, ts⟩
      · rw [htl] at hx
        exact absurd hx (List.not_mem_nil x)
      · rw [htl] at hx
        simp only [List.mem_map] at hx
        obtain ⟨f, hf, rfl⟩ := hx
        refine ⟨f, ?_, rfl⟩
        apply hsf
        unfold scale_factors_of
        rw [htl]
        exact hf
  have hbound : ∀ x ∈ base, x.width * x.height ≤ full.width * full.height := by
    intro x hx
    obtain ⟨f, -, rfl⟩ := hbase_mem x hx
    exact Nat.mul_le_mul (Nat.div_le_self _ _) (Nat.div_le_self _ _)
  have huniq : ∀ x ∈ base, x.width * x.height = full.width * full.height → x = full := by
    intro x hx heq
    obtain ⟨f, -, rfl⟩ := hbase_mem x hx
    obtain ⟨h1, h2⟩ := eq_of_le_of_mul_eq (Nat.div_le_self _ _) (Nat.div_le_self _ _) hw hh heq
    rw [hfull]
    simp only [h1, h2]
  split_ifs with hany
  · have hfull_mem : full ∈ base := by
      rw [List.any_eq_true] at hany
      obtain ⟨x, hx, hxeq⟩ := hany
      rw [Bool.and_eq_true, beq_iff_eq, beq_iff_eq] at hxeq
      have : x = full := by
        rw [hfull]
        cases x
        simp only [Size.mk.injEq]
        exact hxeq
      exact this ▸ hx
    have hlast := insertionSort_getLast_max base full hfull_mem hbound huniq
    refine ⟨?_, hlast⟩
    intro hnil
    rw [hnil] at hlast
    exact Option.noConfusion hlast
  · have hfull_mem : full ∈ base ++ [full] := List.mem_append_right _ (by simp)
    have hbound' : ∀ x ∈ base ++ [full],
        x.width * x.height ≤ full.width * full.height := by
      intro x hx
      rcases List.mem_append.mp hx with hx | hx
      · exact hbound x hx
      · rcases List.mem_singleton.mp hx with rfl
        exact le_refl _
    have huniq' : ∀ x ∈ base ++ [full],
        x.width * x.height = full.width * full.height → x = full := by
      intro x hx heq
      rcases List.mem_append.mp hx with hx | hx
      · exact huniq x hx heq
      · exact List.mem_singleton.mp hx
    have hlast := insertionSort_getLast_max (base ++ [full]) full hfull_mem hbound' huniq'
    refine ⟨?_, hlast⟩
    intro hnil
    rw [hnil] at hlast
    exact Option.noConfusion hlast

/-- C10 (amended).  Every `TiledImage` produced by the constructor from an
image info with positive width and height and positive scale factors has a
non-empty level list whose last entry is exactly the image's full
`(width, height)` — so the `expect` in `get_max_size` and the
`levels.len() - 1` in `get_level_at` are unreachable for such descriptors.
(Positivity is needed: a zero dimension makes every level area `0`, ties are
kept in scale-factor order by the stable sort, and the full size need not
come last; a zero scale factor panics in Rust.) -/
theorem c10_constructor_levels (info : IiifImageInfoV2) (ep : String) (ti : TiledImage)
    (hok : TiledImage.try_from_image_info info ep = .ok ti)
    (hw : 0 < info.width) (hh : 0 < info.height)
    (hsf : ∀ f ∈ scale_factors_of info, 0 < f) :
    ti.levels ≠ [] ∧ ti.levels.getLast? = some ⟨info.width, info.height⟩ := by
  rw [TiledImage.try_from_image_info] at hok
  rcases htf : ImageInfo.try_from info with e | ii <;> rw [htf] at hok
  · exact absurd hok (by simp [Bind.bind, Except.bind])
  · have hinfo : ii.iiif_image_info = info := ImageInfo.try_from_info htf
    simp only [Bind.bind, Except.bind] at hok
    rcases hd : ii.get_profile_details.head? with _ | d <;> rw [hd] at hok
    · exact absurd hok (by simp)
    · dsimp only at hok
      rcases hfm : d.get_formats.head? with _ | fmt <;> rw [hfm] at hok
      · exact absurd hok (by simp)
      · split_ifs at hok with hfeat
        · simp only [Except.ok.injEq] at hok
          rw [← hok]
          have := get_tile_scaling_sizes_getLast ii (hinfo ▸ hw) (hinfo ▸ hh)
            (hinfo ▸ hsf)
          rw [hinfo] at this
          exact this
        · simp only [Except.ok.injEq] at hok
          rw [← hok]
          exact ⟨by simp, by simp⟩

/-- An image info with a degenerate zero width, tiling-capable profile and
scale factors `[1, 2]`. -/
def c10info : IiifImageInfoV2 where
  width := 0
  height := 10
  sizes := none
  tiles := some [⟨256, some 256, [1, 2]⟩]
  profile := [.profileDetails ⟨some [.png], some [], some [.regionByPx, .sizeByWh]⟩]

/-- C10 counterexample.  The claim asserts that *every* descriptor built by
the constructor ends its level list with the full `(width, height)`.  With
width `0`, every level has area `0`; the stable area sort then keeps the
scale-factor order `[(0,10), (0,5)]`, so the last (supposedly
largest) level is `(0,5)`, not the full size `(0,10)`. -/
theorem c10_constructor_levels_counterexample :
    TiledImage.try_from_image_info c10info "https://iiif_end_point/uuid"
      = .ok ⟨"https://iiif_end_point/uuid", [⟨0, 10⟩, ⟨0, 5⟩], ⟨256, 256⟩, .png,
          [.regionByPx, .sizeByWh], [⟨0, 10⟩]⟩ ∧
    ([⟨0, 10⟩, ⟨0, 5⟩] : List Size).getLast? = some ⟨0, 5⟩ ∧
    (⟨0, 5⟩ : Size) ≠ (⟨c10info.width, c10info.height⟩ : Size) := by
  refine ⟨rfl, rfl, by decide⟩

/-- C10 witness: the amended theorem applied to the concrete well-formed
info `c8info` (100×100, no tile metadata). -/
theorem c10_constructor_levels_witness :
    (⟨"https://iiif_end_point/uuid", [⟨100, 100⟩], ⟨512, 512⟩, .png,
        [.regionByPx, .sizeByWh], [⟨100, 100⟩]⟩ : TiledImage).levels ≠ [] ∧
    (⟨"https://iiif_end_point/uuid", [⟨100, 100⟩], ⟨512, 512⟩, .png,
        [.regionByPx, .sizeByWh], [⟨100, 100⟩]⟩ : TiledImage).levels.getLast?
      = some ⟨c8info.width, c8info.height⟩ :=
  c10_constructor_levels c8info "https://iiif_end_point/uuid" _ rfl
    (by decide) (by decide) (by decide)

end RsIiif
